import Mathlib

/-!
Verification development for the PTA wire-scanner file parser (`pta.py`).

The Python source is shallowly embedded: strings are Lean `String`s, but every
Python string method used by the source (`str.split`, `str.rstrip`,
`str.startswith`, `str.lower`, slicing) is modelled by an explicitly defined
structural function over the underlying character list, so that every
definition evaluates inside the kernel.  Python floats are modelled as `ℚ`
(the parser only stores the parsed values and never computes with them, so
the rational value of the literal is a faithful model), fallible code returns
`Except String`, and Python `dict` values are modelled as association lists
with Python's insertion-order update semantics.
-/

/-- Helper predicate turned into a Bool: result of an `Except` computation is `ok`. -/
def isOkE {α : Type} : Except String α → Bool
  | Except.ok _ => true
  | Except.error _ => false

instance {ε α : Type} [DecidableEq ε] [DecidableEq α] : DecidableEq (Except ε α) := fun x y =>
  match x, y with
  | Except.ok a, Except.ok b =>
    decidable_of_iff (a = b) ⟨fun h => by rw [h], fun h => by injection h⟩
  | Except.error a, Except.error b =>
    decidable_of_iff (a = b) ⟨fun h => by rw [h], fun h => by injection h⟩
  | Except.ok _, Except.error _ => isFalse (fun h => Except.noConfusion h)
  | Except.error _, Except.ok _ => isFalse (fun h => Except.noConfusion h)

/-- Characters of a string; Lean `String` is a structure wrapping `List Char`. -/
def chars (s : String) : List Char := s.data

/-- Model of Python `str.split(sep)` on character lists, fuel-based so that it
reduces in the kernel.  Scans left to right; whenever `sep` is a prefix of the
remainder the accumulated run is emitted and `sep` is consumed.  `sep` is
always non-empty at every call site (as in the Python source, where an empty
separator would raise).  The fuel `n + 1` with `n` the length of the scanned
list always suffices, since every step consumes at least one character. -/
def splitOnAux (sep : List Char) : Nat → List Char → List Char → List (List Char)
  | 0, rest, acc => [acc.reverse ++ rest]
  | _ + 1, [], acc => [acc.reverse]
  | fuel + 1, c :: rest, acc =>
    if sep.isPrefixOf (c :: rest) then
      acc.reverse :: splitOnAux sep fuel ((c :: rest).drop sep.length) []
    else
      splitOnAux sep fuel rest (c :: acc)

/-- Model of Python `s.split(sep)` for a non-empty separator `sep`. -/
def pySplitOn (s sep : String) : List String :=
  (splitOnAux sep.data (s.data.length + 1) s.data []).map String.mk

/-- Model of Python `s.split()` (no argument): split on runs of whitespace,
discarding empty tokens. -/
def splitWsAux : List Char → List Char → List (List Char)
  | [], acc => if acc.isEmpty then [] else [acc.reverse]
  | c :: rest, acc =>
    if c.isWhitespace then
      if acc.isEmpty then splitWsAux rest [] else acc.reverse :: splitWsAux rest []
    else
      splitWsAux rest (c :: acc)

/-- Model of Python `s.split()` with no separator argument. -/
def pySplitWs (s : String) : List String :=
  (splitWsAux s.data []).map String.mk

/-- Model of Python `s.rstrip()`: drop trailing whitespace. -/
def pyRstrip (s : String) : String :=
  String.mk ((s.data.reverse.dropWhile Char.isWhitespace).reverse)

/-- Whitespace stripped from both ends, used by the numeric literal parsers
(Python `int()` and `float()` ignore surrounding whitespace). -/
def stripWs (cs : List Char) : List Char :=
  ((cs.dropWhile Char.isWhitespace).reverse.dropWhile Char.isWhitespace).reverse

/-- Model of Python `s.startswith(p)`. -/
def pyStartsWith (s p : String) : Bool :=
  p.data.isPrefixOf s.data

/-- Model of Python `s.lower()`. -/
def pyLower (s : String) : String :=
  String.mk (s.data.map Char.toLower)

/-- Model of Python `s[k:]` (strings are sequences of characters). -/
def pyDrop (s : String) : Nat → String :=
  fun k => String.mk (s.data.drop k)

/-- Numeric value of a digit run (most significant first). -/
def digitsVal (cs : List Char) : Nat :=
  cs.foldl (fun n c => 10 * n + (c.toNat - 48)) 0

/-- Model of Python `int(token)` on the character list after whitespace
stripping: an optional sign followed by a non-empty run of decimal digits.
(The model covers the plain decimal grammar; underscore separators and
non-ASCII digits, which no claim exercises, are not modelled.) -/
def parseIntChars : List Char → Option Int
  | '+' :: r => if !r.isEmpty && r.all Char.isDigit then some (digitsVal r : Int) else none
  | '-' :: r => if !r.isEmpty && r.all Char.isDigit then some (-(digitsVal r : Int)) else none
  | r => if !r.isEmpty && r.all Char.isDigit then some (digitsVal r : Int) else none

/-- Model of Python `int(s)`. -/
def parseInt? (s : String) : Option Int :=
  parseIntChars (stripWs s.data)

/-- Exponent digits of a float literal after `e`/`E`: optional sign and a
non-empty digit run. -/
def parseExpVal : List Char → Option Int
  | '+' :: r => if !r.isEmpty && r.all Char.isDigit then some (digitsVal r : Int) else none
  | '-' :: r => if !r.isEmpty && r.all Char.isDigit then some (-(digitsVal r : Int)) else none
  | r => if !r.isEmpty && r.all Char.isDigit then some (digitsVal r : Int) else none

/-- Optional exponent part of a float literal; absent exponent means `10 ^ 0`. -/
def parseExpPart : List Char → Option Int
  | [] => some (0 : Int)
  | 'e' :: r => parseExpVal r
  | 'E' :: r => parseExpVal r
  | _ => none

/-- Exact rational value of the decimal literal with integer digits `ip`,
fraction digits `fp` and decimal exponent `e`. -/
def decimalVal (ip fp : List Char) (e : Int) : ℚ :=
  let mant : Nat := digitsVal ip * 10 ^ fp.length + digitsVal fp
  if 0 ≤ e then mkRat ((mant * 10 ^ e.toNat : Nat) : Int) (10 ^ fp.length)
  else mkRat (mant : Int) (10 ^ fp.length * 10 ^ e.natAbs)

/-- Unsigned float literal: `digits`, `digits.digits`, `digits.`, or `.digits`,
optionally followed by an exponent part. -/
def parseUnsigned (cs : List Char) : Option ℚ :=
  let ip := cs.takeWhile Char.isDigit
  let r1 := cs.dropWhile Char.isDigit
  match r1 with
  | '.' :: r2 =>
    let fp := r2.takeWhile Char.isDigit
    let r3 := r2.dropWhile Char.isDigit
    if ip.isEmpty && fp.isEmpty then none
    else (parseExpPart r3).map (fun e => decimalVal ip fp e)
  | _ =>
    if ip.isEmpty then none else (parseExpPart r1).map (fun e => decimalVal ip [] e)

/-- Model of Python `float(s)`: surrounding whitespace ignored, optional sign,
then a decimal literal with optional fraction and exponent.  The value of the
literal is represented exactly as a rational; the parser under study only
stores these values, so no floating-point rounding behaviour is observable.
(`inf`/`nan` and underscore separators, which no claim exercises, are not
modelled.) -/
def parseFloat? (s : String) : Option ℚ :=
  match stripWs s.data with
  | '+' :: r => parseUnsigned r
  | '-' :: r => (parseUnsigned r).map (fun q => -q)
  | r => parseUnsigned r

/-- Lexicographic comparison on character lists by code point, the order used
by Python string comparison (and hence by `sorted` on strings). -/
def lexLe : List Char → List Char → Bool
  | [], _ => true
  | _ :: _, [] => false
  | a :: as, b :: bs => if a < b then true else if a = b then lexLe as bs else false

/-- Model of Python `a <= b` on strings: lexicographic by code point. -/
def pyLe (a b : String) : Bool :=
  lexLe a.data b.data

/-- Comparison relation fed to the sort modelling Python `sorted`. -/
def pyLeRel : String → String → Prop :=
  fun a b => pyLe a b = true

instance : DecidableRel pyLeRel :=
  fun a b => inferInstanceAs (Decidable (pyLe a b = true))

/-- Model of Python `sorted` on a list of strings: the sorted permutation.
Insertion sort is extensionally equal to any other sort here because
`pyLeRel` is a total antisymmetric order, so the sorted permutation of a
list is unique. -/
def pySorted (l : List String) : List String :=
  List.insertionSort pyLeRel l


/-- Model of `transpose` (pta.py lines 17-18): Python `zip(*array)` zips the
rows, producing one output row per column index below the length of the
shortest input row; longer rows are silently truncated to that length.  The
default in `getD` is never read, since every index stays below each row's
length. -/
def transpose (rows : List (List ℚ)) : List (List ℚ) :=
  match rows with
  | [] => []
  | r :: rs =>
    let n := rs.foldl (fun m row => min m row.length) r.length
    (List.range n).map (fun j => (r :: rs).map (fun row => row.getD j 0))

/-- Model of the list comprehension `[i for i, item in enumerate(items) if
item == token]` (pta.py line 29), with `i` starting from the given index. -/
def idxsOf {α : Type} [DecidableEq α] (token : α) : List α → Nat → List Nat
  | [], _ => []
  | a :: rest, i =>
    if a = token then i :: idxsOf token rest (i + 1) else idxsOf token rest (i + 1)

/-- Model of `split` (pta.py lines 21-37).  Mirrors the Python statement by
statement: the index list of sentinel occurrences, the front run (guarded by
`items[0] != token`, whose body reads `indices[0]`), the runs strictly
between consecutive occurrence indices, and the back run (guarded by
`items[-1] != token`, whose body reads `indices[-1]`).  The Python code
raises IndexError when `items` is empty (at `items[0]`) and when no sentinel
occurs (at `indices[0]` or `indices[-1]`); these are the `error` branches. -/
def split {α : Type} [DecidableEq α] (items : List α) (token : α) : Except String (List (List α)) :=
  match items with
  | [] => Except.error "IndexError: list index out of range"
  | first :: rest =>
    let indices := idxsOf token (first :: rest) 0
    match indices with
    | [] => Except.error "IndexError: list index out of range"
    | i0 :: restIdx =>
      let front := if first ≠ token then [(first :: rest).take i0] else []
      let mids := (indices.zip indices.tail).map
        (fun p => ((first :: rest).drop (p.1 + 1)).take (p.2 - p.1 - 1))
      let iLast := (i0 :: restIdx).getLast (List.cons_ne_nil i0 restIdx)
      let back :=
        if (first :: rest).getLast (List.cons_ne_nil first rest) ≠ token then
          [(first :: rest).drop (iLast + 1)]
        else []
      Except.ok (front ++ mids ++ back)

/-- Model of `string_to_list` (pta.py lines 40-45): whitespace-split the line
and convert every token with `float`; the first non-numeric token raises. -/
def string_to_list (s : String) : Except String (List ℚ) :=
  (pySplitWs s).mapM (fun tok =>
    match parseFloat? tok with
    | some q => Except.ok q
    | none => Except.error ("ValueError: could not convert string to float: " ++ tok))

/-- Profile record stored per wire-scanner ID (the value dict described in
the PTA docstring, pta.py lines 166-177). -/
structure Profile where
  x : List ℚ
  y : List ℚ
  u : List ℚ
  fx : List ℚ
  fy : List ℚ
  fu : List ℚ
  fx_fit : List ℚ
  fy_fit : List ℚ
  fu_fit : List ℚ
  stats : List (String × ℚ)
deriving DecidableEq

/-- Calendar timestamp produced by `datetime(year, month, day, hour, minute,
second)` (pta.py line 104). -/
structure Datetime where
  year : Int
  month : Int
  day : Int
  hour : Int
  minute : Int
  second : Int
deriving DecidableEq

/-- Gregorian leap-year rule, as used by Python `datetime` for validating the
day of the month. -/
def isLeapYear (y : Int) : Bool :=
  y % 4 = 0 && (y % 100 ≠ 0 || y % 400 = 0)

/-- Number of days in a month, as used by Python `datetime` validation. -/
def daysInMonth (y m : Int) : Int :=
  if m = 2 then (if isLeapYear y then 29 else 28)
  else if m = 4 ∨ m = 6 ∨ m = 9 ∨ m = 11 then 30 else 31

/-- Model of the `datetime(...)` constructor call (pta.py line 104): range
validation of the six fields, raising ValueError outside `datetime.MINYEAR ≤
year ≤ datetime.MAXYEAR`, `1 ≤ month ≤ 12`, `1 ≤ day ≤ daysInMonth`,
`0 ≤ hour ≤ 23`, `0 ≤ minute ≤ 59`, `0 ≤ second ≤ 59`. -/
def mkDatetime (y mo d h mi s : Int) : Except String Datetime :=
  if 1 ≤ y ∧ y ≤ 9999 ∧ 1 ≤ mo ∧ mo ≤ 12 ∧ 1 ≤ d ∧ d ≤ daysInMonth y mo
      ∧ 0 ≤ h ∧ h ≤ 23 ∧ 0 ≤ mi ∧ mi ≤ 59 ∧ 0 ≤ s ∧ s ≤ 59 then
    Except.ok ⟨y, mo, d, h, mi, s⟩
  else
    Except.error "ValueError: datetime field out of range"

/-- Decimal digits of `n`, most significant first, by fuel recursion (the fuel
`n + 1` always suffices since the value shrinks by a factor of ten each
step). -/
def natDigitsAux : Nat → Nat → List Char
  | 0, _ => []
  | fuel + 1, n =>
    if n < 10 then [Nat.digitChar n] else natDigitsAux fuel (n / 10) ++ [Nat.digitChar (n % 10)]

/-- Decimal representation of a natural number, as Python `str`. -/
def natRepr (n : Nat) : String :=
  String.mk (natDigitsAux (n + 1) n)

/-- Model of Python `str(n)` / `"{}".format(n)` for an integer. -/
def intRepr (n : Int) : String :=
  if n < 0 then "-" ++ natRepr n.natAbs else natRepr n.toNat

/-- Model of Python `"{:02.0f}".format(n)` for the integral calendar fields:
the decimal representation zero-padded on the left to width two.  Exact for
the magnitudes produced by a validated `datetime` (conversion through float
is lossless there). -/
def fmt02 (n : Int) : String :=
  if 0 ≤ n ∧ n < 10 then "0" ++ intRepr n else intRepr n

/-- Last element of the (always non-empty) result of a Python `split`,
modelling the `[-1]` index. -/
def lastD (l : List String) : String := l.getLastD ""

/-- First element of the (always non-empty) result of a Python `split`,
modelling the `[0]` index. -/
def headD (l : List String) : String := l.headD ""

/-- Model of the timestamp extraction (pta.py lines 99-108): split the
filename on the `WireAnalysisFmt-` marker (last component), unpack the
date/time halves around `_`, cut the time at `.pta`, parse the dot-separated
integer fields, validate them through `datetime`, and build the compact form
`str(year) + five zero-padded two-digit fields` with the first two characters
then dropped. -/
def parseTimestamp (filename : String) : Except String (Datetime × String) :=
  let tail := lastD (pySplitOn filename "WireAnalysisFmt-")
  match pySplitOn tail "_" with
  | [date, time0] =>
    let time := headD (pySplitOn time0 ".pta")
    match (pySplitOn date ".").mapM parseInt? with
    | none => Except.error "ValueError: invalid literal for int (date)"
    | some dateNums =>
      match dateNums with
      | [year, month, day] =>
        match (pySplitOn time ".").mapM parseInt? with
        | none => Except.error "ValueError: invalid literal for int (time)"
        | some timeNums =>
          match timeNums with
          | [hour, minute, second] =>
            match mkDatetime year month day hour minute second with
            | Except.error e => Except.error e
            | Except.ok dt =>
              let short := intRepr year ++ fmt02 month ++ fmt02 day
                ++ fmt02 hour ++ fmt02 minute ++ fmt02 second
              Except.ok (dt, pyDrop short 2)
          | _ => Except.error "ValueError: unpack mismatch (time)"
      | _ => Except.error "ValueError: unpack mismatch (date)"
  | _ => Except.error "ValueError: unpack mismatch (filename)"

/-- Association-list lookup with decidable string keys, modelling Python
`dict` indexing on the dictionaries built by the parser. -/
def alookup {β : Type} : List (String × β) → String → Option β
  | [], _ => none
  | (k', v) :: rest, k => if k' = k then some v else alookup rest k

/-- Model of `lines.setdefault(ws_id, []).append(line)` (pta.py line 120) on
an insertion-ordered association list: append to the existing entry in place,
or add a new entry at the end. -/
def appendAt : List (String × List String) → String → String → List (String × List String)
  | [], k, v => [(k, [v])]
  | (k', vs) :: rest, k, v =>
    if k' = k then (k', vs ++ [v]) :: rest else (k', vs) :: appendAt rest k v

/-- Model of the line-collection loop (pta.py lines 112-123): every line is
right-stripped; a line starting with `RTBT_Diag` becomes the current scanner
ID and is skipped; otherwise the line is appended to the current scanner's
list (if any), and then a line starting with `PVLoggerID` re-sets the logger
ID to `int(line.split("=")[1])`. -/
def collect : List String → Option String → Option Int → List (String × List String) →
    Except String (List (String × List String) × Option Int)
  | [], _, pvl, d => Except.ok (d, pvl)
  | line0 :: rest, wsId, pvl, d =>
    let line := pyRstrip line0
    if pyStartsWith line "RTBT_Diag" then
      collect rest (some line) pvl d
    else
      let d1 := match wsId with
        | some k => appendAt d k line
        | none => d
      if pyStartsWith line "PVLoggerID" then
        match (pySplitOn line "=").get? 1 with
        | none => Except.error "IndexError: list index out of range"
        | some tok =>
          match parseInt? tok with
          | none => Except.error "ValueError: invalid literal for int"
          | some n => collect rest wsId (some n) d1
      else
        collect rest wsId pvl d1

/-- Model of `split(lines[node_id], sep)[:3]` unpacked into three names
(pta.py lines 133-134): at least three sections are required, and sections
beyond the third are dropped by the `[:3]` slice. -/
def takeSections (blockLines : List String) : Except String (List String × List String × List String) :=
  match split blockLines "" with
  | Except.error e => Except.error e
  | Except.ok secs =>
    match secs.take 3 with
    | [s1, s2, s3] => Except.ok (s1, s2, s3)
    | _ => Except.error "ValueError: unpack mismatch (sections)"

/-- Model of the seven-name tuple unpack of a transposed array (pta.py lines
145 and 150): exactly seven columns are required. -/
def unpack7 (cols : List (List ℚ)) :
    Except String (List ℚ × List ℚ × List ℚ × List ℚ × List ℚ × List ℚ × List ℚ) :=
  match cols with
  | [c1, c2, c3, c4, c5, c6, c7] => Except.ok (c1, c2, c3, c4, c5, c6, c7)
  | _ => Except.error "ValueError: unpack mismatch (columns)"

/-- Model of a Python `dict` store `stats[key] = val` on an insertion-ordered
association list: overwrite the (unique) existing entry in place, or append a
new entry at the end.  The dictionaries built by the parser never hold
duplicate keys, so first-occurrence replacement is exactly Python's dict
assignment. -/
def dictInsert : List (String × ℚ) → String → ℚ → List (String × ℚ)
  | [], k, v => [(k, v)]
  | (k', w) :: rest, k, v =>
    if k' = k then (k, v) :: rest else (k', w) :: dictInsert rest k v

/-- Model of one iteration of the stats loop (pta.py lines 154-164): tokenize
the line, lower-case the first token as the metric name (IndexError on an
empty token list), parse the remaining tokens as floats, unpack exactly six
values positionally as (y_fit, y_rms, u_fit, u_rms, x_fit, x_rms), and store
them under the six synthesized keys in the source's insertion order. -/
def statsLineStep (stats : List (String × ℚ)) (line : String) : Except String (List (String × ℚ)) :=
  match pySplitWs line with
  | [] => Except.error "IndexError: list index out of range"
  | tok0 :: restToks =>
    let name := pyLower tok0
    match restToks.mapM (fun t =>
        match parseFloat? t with
        | some q => Except.ok q
        | none => Except.error ("ValueError: could not convert string to float: " ++ t)) with
    | Except.error e => Except.error e
    | Except.ok vals =>
      match vals with
      | [stat_y_fit, stat_y_rms, stat_u_fit, stat_u_rms, stat_x_fit, stat_x_rms] =>
        let s1 := dictInsert stats (name ++ "_x_rms") stat_x_rms
        let s2 := dictInsert s1 (name ++ "_x_fit") stat_x_fit
        let s3 := dictInsert s2 (name ++ "_y_rms") stat_y_rms
        let s4 := dictInsert s3 (name ++ "_y_fit") stat_y_fit
        let s5 := dictInsert s4 (name ++ "_u_rms") stat_u_rms
        let s6 := dictInsert s5 (name ++ "_u_fit") stat_u_fit
        Except.ok s6
      | _ => Except.error "ValueError: unpack mismatch (stats line)"

/-- Model of the per-scanner body of the read loop (pta.py lines 127-177):
take the first three sentinel-separated sections, drop the two header lines
of each, parse and transpose the raw section into seven columns (position,
fy, fu, fx, x, y, u), parse and transpose the fit section likewise; the
source rebinds `pos, x, y, u` at line 150, so the raw-section position and
x/y/u columns bound at line 145 are dead and the stored `x`, `y`, `u` come
from the fit section.  Finally fold the stats lines into the stats dict and
assemble the profile record. -/
def parseProfile (blockLines : List String) : Except String Profile :=
  match takeSections blockLines with
  | Except.error e => Except.error e
  | Except.ok (secStats, secRaw, secFit) =>
    let lines_stats := secStats.drop 2
    let lines_raw := secRaw.drop 2
    let lines_fit := secFit.drop 2
    match lines_raw.mapM string_to_list with
    | Except.error e => Except.error e
    | Except.ok data_arr_raw =>
      match unpack7 (transpose data_arr_raw) with
      | Except.error e => Except.error e
      | Except.ok (_pos, fy, fu, fx, _x_raw, _y_raw, _u_raw) =>
        match lines_fit.mapM string_to_list with
        | Except.error e => Except.error e
        | Except.ok data_arr_fit =>
          match unpack7 (transpose data_arr_fit) with
          | Except.error e => Except.error e
          | Except.ok (_pos2, fy_fit, fu_fit, fx_fit, x, y, u) =>
            match lines_stats.foldlM statsLineStep [] with
            | Except.error e => Except.error e
            | Except.ok stats =>
              Except.ok ⟨x, y, u, fx, fy, fu, fx_fit, fy_fit, fu_fit, stats⟩

/-- Record assembled by `PTA.__init__`/`read_file` (pta.py lines 48-177).
The source class is a `dict` subclass keyed by scanner ID; following the
design note it is represented as an explicit record with the mapping in the
`profiles` field. -/
structure PTA where
  filename : String
  filename_short : String
  timestamp : Datetime
  timestamp_short : String
  pvloggerid : Option Int
  node_ids : List String
  profiles : List (String × Profile)
deriving DecidableEq

/-- Model of the loop `for node_id in self.node_ids: ... self[node_id] = ...`
(pta.py lines 127-177): look up each scanner's collected lines and parse its
profile, in order. -/
def buildProfiles (d : List (String × List String)) : List String → Except String (List (String × Profile))
  | [] => Except.ok []
  | nodeId :: rest =>
    match alookup d nodeId with
    | none => Except.error "KeyError"
    | some blockLines =>
      match parseProfile blockLines with
      | Except.error e => Except.error e
      | Except.ok p =>
        match buildProfiles d rest with
        | Except.error e => Except.error e
        | Except.ok ps => Except.ok ((nodeId, p) :: ps)

/-- Model of `PTA.__init__` driving `read_file` (pta.py lines 88-177), with
the file contents supplied as the list of lines the external I/O collaborator
would produce.  Construction either returns a complete record or an error;
the Python exception aborts `__init__` so no object is produced. -/
def read_file (filename : String) (fileLines : List String) : Except String PTA :=
  match parseTimestamp filename with
  | Except.error e => Except.error e
  | Except.ok (dt, short) =>
    match collect fileLines none none [] with
    | Except.error e => Except.error e
    | Except.ok (d, pvl) =>
      let node_ids := pySorted (d.map Prod.fst)
      match buildProfiles d node_ids with
      | Except.error e => Except.error e
      | Except.ok profiles =>
        Except.ok ⟨filename, lastD (pySplitOn filename "/"), dt, short, pvl, node_ids, profiles⟩

/-- Value of an `ok` result, with a default for `error` (used only to name
concrete successfully parsed values in closed statements). -/
def okD {α : Type} [Inhabited α] : Except String α → α
  | Except.ok a => a
  | Except.error _ => default

instance : Inhabited Datetime := ⟨⟨0, 0, 0, 0, 0, 0⟩⟩

instance : Inhabited Profile := ⟨⟨[], [], [], [], [], [], [], [], [], []⟩⟩

instance : Inhabited PTA := ⟨⟨"", "", default, "", none, [], []⟩⟩

/-- Test for a scanner-ID marker line (after right-stripping): the fixed
facility-prefix convention tested at pta.py line 116. -/
def isMarker (l : String) : Bool :=
  pyStartsWith l "RTBT_Diag"

/-- Scanner-ID marker lines of the input, right-stripped, in file order. -/
def markersOf (ls : List String) : List String :=
  (ls.map pyRstrip).filter isMarker

/-- Validity condition of the file-body contract used by the claims: every
scanner-ID marker line is immediately followed by a further line that is not
itself a marker (so every scanner block is non-empty). -/
def markersFollowed : List String → Bool
  | [] => true
  | [l] => !isMarker (pyRstrip l)
  | l :: l' :: rest =>
    (!isMarker (pyRstrip l) || !isMarker (pyRstrip l')) && markersFollowed (l' :: rest)

/-- Lines of the input that start with `PVLoggerID` (right-stripped), in file
order. -/
def pvLines (ls : List String) : List String :=
  (ls.map pyRstrip).filter (fun l => pyStartsWith l "PVLoggerID")

/-- Block of lines belonging to scanner `k` when scanning `ls` with current
scanner `cur`: the right-stripped non-marker lines whose most recent
preceding marker (or initial current scanner) is `k`.  Lines following
repeated occurrences of the same marker text land in this single list, in
file order. -/
def blockOf (k : String) : List String → Option String → List String
  | [], _ => []
  | l :: rest, cur =>
    let t := pyRstrip l
    if isMarker t then blockOf k rest (some t)
    else (if cur = some k then [t] else []) ++ blockOf k rest cur

/-- Filename of the sample measurement file. -/
def sampleName : String := "WireAnalysisFmt-2023.02.27_23.57.00.pta.txt"

/-- Lines of a well-formed two-scanner sample file: junk before the first
marker, the markers out of lexicographic order, a `PVLoggerID` line tucked
after the third section of the first block, and a trailing empty section. -/
def sampleLines : List String :=
  [ "junk before first marker",
    "RTBT_Diag:WS02",
    "Name y_fit y_rms u_fit u_rms x_fit x_rms",
    "---- ----- ----- ----- ----- ----- -----",
    "Sigma 10 20 30 40 50 60",
    "",
    "pos fx x fy y fu u",
    "--- -- - -- - -- -",
    "0 1 2 3 4 5 6",
    "",
    "pos fx x fy y fu u",
    "--- -- - -- - -- -",
    "0 1 2 3 40 50 60",
    "",
    "PVLoggerID=12345",
    "RTBT_Diag:WS01",
    "Name y_fit y_rms u_fit u_rms x_fit x_rms",
    "---- ----- ----- ----- ----- ----- -----",
    "Mean -1.5 2 3 4 5 6",
    "",
    "pos fx x fy y fu u",
    "--- -- - -- - -- -",
    "0 1 2 3 4 5 6",
    "7 8 9 10 11 12 13",
    "",
    "pos fx x fy y fu u",
    "--- -- - -- - -- -",
    "0 1 2 3 4 5 6",
    "",
    "" ]

/-- Collected line list of the first scanner block of the sample file (what
`collect` stores for `RTBT_Diag:WS02`): three sections plus the trailing
`PVLoggerID` line as an ignored fourth section. -/
def sampleBlock : List String :=
  [ "Name y_fit y_rms u_fit u_rms x_fit x_rms",
    "---- ----- ----- ----- ----- ----- -----",
    "Sigma 10 20 30 40 50 60",
    "",
    "pos fx x fy y fu u",
    "--- -- - -- - -- -",
    "0 1 2 3 4 5 6",
    "",
    "pos fx x fy y fu u",
    "--- -- - -- - -- -",
    "0 1 2 3 40 50 60",
    "",
    "PVLoggerID=12345" ]

/-- Collected line list of the second scanner block of the sample file (what
`collect` stores for `RTBT_Diag:WS01`). -/
def sampleBlock01 : List String :=
  [ "Name y_fit y_rms u_fit u_rms x_fit x_rms",
    "---- ----- ----- ----- ----- ----- -----",
    "Mean -1.5 2 3 4 5 6",
    "",
    "pos fx x fy y fu u",
    "--- -- - -- - -- -",
    "0 1 2 3 4 5 6",
    "7 8 9 10 11 12 13",
    "",
    "pos fx x fy y fu u",
    "--- -- - -- - -- -",
    "0 1 2 3 4 5 6",
    "",
    "" ]

/-- Scanner dictionary produced by `collect` on the sample file, in insertion
order (WS02 first, the order the markers appear). -/
def sampleDict : List (String × List String) :=
  [("RTBT_Diag:WS02", sampleBlock), ("RTBT_Diag:WS01", sampleBlock01)]

/-- Lines of a file whose only flaw is a stats line with five value tokens. -/
def badStatsLines : List String :=
  [ "RTBT_Diag:WS05",
    "Name y_fit y_rms u_fit u_rms x_fit x_rms",
    "---- ----- ----- ----- ----- ----- -----",
    "Sigma 1 2 3 4 5",
    "",
    "pos fx x fy y fu u",
    "--- -- - -- - -- -",
    "0 1 2 3 4 5 6",
    "",
    "pos fx x fy y fu u",
    "--- -- - -- - -- -",
    "0 1 2 3 4 5 6",
    "" ]

/-- Lines of a file whose second raw-section row carries an extra numeric
token `99` beyond the seven columns. -/
def raggedLines : List String :=
  [ "RTBT_Diag:WS07",
    "Name y_fit y_rms u_fit u_rms x_fit x_rms",
    "---- ----- ----- ----- ----- ----- -----",
    "Sigma 10 20 30 40 50 60",
    "",
    "pos fx x fy y fu u",
    "--- -- - -- - -- -",
    "0 1 2 3 4 5 6",
    "7 8 9 10 11 12 13 99",
    "",
    "pos fx x fy y fu u",
    "--- -- - -- - -- -",
    "0 1 2 3 4 5 6",
    "7 8 9 10 11 12 13",
    "" ]

/-- Lines of a valid file with two `PVLoggerID` lines: one before the first
marker and one in the (ignored) fourth section of the scanner block. -/
def pvDemoLines : List String :=
  [ "PVLoggerID=1",
    "RTBT_Diag:WS03",
    "Name y_fit y_rms u_fit u_rms x_fit x_rms",
    "---- ----- ----- ----- ----- ----- -----",
    "Sigma 1 2 3 4 5 6",
    "",
    "pos fx x fy y fu u",
    "--- -- - -- - -- -",
    "0 1 2 3 4 5 6",
    "",
    "pos fx x fy y fu u",
    "--- -- - -- - -- -",
    "0 1 2 3 4 5 6",
    "",
    "PVLoggerID=2" ]

/-!
Helper lemmas, followed by one theorem per claim (with counterexamples and
witnesses where applicable).
-/

theorem idxsOf_eq_nil {α : Type} [DecidableEq α] (token : α) :
    ∀ (l : List α) (i : Nat), token ∉ l → idxsOf token l i = [] := by
  intro l
  induction l with
  | nil => intro i _; rfl
  | cons a rest ih =>
    intro i h
    rw [idxsOf, if_neg]
    · exact ih (i + 1) (fun hm => h (List.mem_cons_of_mem a hm))
    · intro ha
      subst ha
      exact h (List.mem_cons_self a rest)

theorem idxsOf_all_eq {α : Type} [DecidableEq α] (token : α) :
    ∀ (l : List α) (i : Nat), (∀ x ∈ l, x = token) → idxsOf token l i = List.range' i l.length := by
  intro l
  induction l with
  | nil => intro i _; rfl
  | cons a rest ih =>
    intro i h
    rw [idxsOf, if_pos (h a (List.mem_cons_self a rest))]
    rw [ih (i + 1) (fun x hx => h x (List.mem_cons_of_mem a hx))]
    rfl

theorem range'_zip_tail :
    ∀ (n i : Nat), (List.range' i n).zip (List.range' i n).tail =
      (List.range' i (n - 1)).map (fun j => (j, j + 1))
  | 0, _ => rfl
  | 1, _ => rfl
  | n + 2, i => by
    have ih := range'_zip_tail (n + 1) (i + 1)
    show (i, i + 1) :: (List.range' (i + 1) (n + 1)).zip (List.range' (i + 2) n) =
      (i, i + 1) :: (List.range' (i + 1) n).map (fun j => (j, j + 1))
    rw [show List.range' (i + 2) n = (List.range' (i + 1) (n + 1)).tail from rfl]
    rw [ih]
    rfl

/-- Claim C2, first law as implemented: with the sentinel absent from a
non-empty input, `split` raises (models the IndexError at `indices[0]` or
`indices[-1]`), rather than returning the whole input as one section. -/
theorem split_no_token_error (items : List String) (token : String)
    (hne : items ≠ []) (h : token ∉ items) :
    split items token = Except.error "IndexError: list index out of range" := by
  match items with
  | [] => exact absurd rfl hne
  | first :: rest =>
    rw [split]
    rw [idxsOf_eq_nil token (first :: rest) 0 h]

/-- Claim C2, second law as implemented: on a non-empty input consisting only
of sentinel values, `split` returns one empty section per pair of adjacent
sentinels, i.e. `n - 1` empty sections for `n` sentinels. -/
theorem split_all_token (items : List String) (token : String)
    (hne : items ≠ []) (h : ∀ x ∈ items, x = token) :
    split items token = Except.ok (List.replicate (items.length - 1) []) := by
  match items with
  | [] => exact absurd rfl hne
  | first :: rest =>
    rw [split]
    rw [idxsOf_all_eq token (first :: rest) 0 h]
    have hlen : (first :: rest).length = rest.length + 1 := rfl
    rw [hlen]
    rw [show List.range' 0 (rest.length + 1) = 0 :: List.range' 1 rest.length from rfl]
    have hfirst : first = token := h first (List.mem_cons_self first rest)
    have hlast : (first :: rest).getLast (List.cons_ne_nil first rest) = token :=
      h _ (List.getLast_mem (List.cons_ne_nil first rest))
    dsimp only
    rw [if_neg (fun hc => hc hfirst), if_neg (fun hc => hc hlast)]
    have hzip : ((0 :: List.range' 1 rest.length).zip (0 :: List.range' 1 rest.length).tail) =
        (List.range' 0 rest.length).map (fun j => (j, j + 1)) := by
      have := range'_zip_tail (rest.length + 1) 0
      simpa using this
    rw [hzip, List.map_map]
    rw [List.nil_append, List.append_nil]
    congr 1
    apply List.eq_replicate_iff.2
    constructor
    · simp
    · intro b hb
      rcases List.mem_map.1 hb with ⟨j, _, hj⟩
      rw [← hj]
      show List.take (j + 1 - j - 1) (List.drop (j + 1) (first :: rest)) = []
      have hz : j + 1 - j - 1 = 0 := by omega
      rw [hz]
      rfl

/-- Claim C2 counterexample: on the sentinel-free non-empty input
`["a", "b"]` the code raises (IndexError) instead of returning the single
section `[["a", "b"]]`, and on the all-sentinel input `["x", "x"]` it returns
one empty section instead of zero sections. -/
theorem claim_C2_counterexample :
    split ["a", "b"] "x" = Except.error "IndexError: list index out of range" ∧
      split ["x", "x"] "x" = Except.ok [[]] := by
  constructor <;> rfl

/-- Claim C2 amended: for every non-empty sequence of lines containing no
occurrence of the sentinel, splitting raises an IndexError (it does not
return one section); for every non-empty sequence of `n` sentinel values,
splitting returns `n - 1` empty sections (zero sections only when `n = 1`). -/
theorem claim_C2_amended :
    (∀ (items : List String) (token : String), items ≠ [] → token ∉ items →
      split items token = Except.error "IndexError: list index out of range") ∧
    (∀ (items : List String) (token : String), items ≠ [] → (∀ x ∈ items, x = token) →
      split items token = Except.ok (List.replicate (items.length - 1) [])) :=
  ⟨fun items token hne h => split_no_token_error items token hne h,
   fun items token hne h => split_all_token items token hne h⟩

/-- Claim C2 amended, witness: both amended laws evaluated at concrete
inputs. -/
theorem claim_C2_witness :
    split ["a"] "x" = Except.error "IndexError: list index out of range" ∧
      split ["x", "x", "x"] "x" = Except.ok (List.replicate 2 []) :=
  ⟨claim_C2_amended.1 ["a"] "x" (by decide) (by decide),
   claim_C2_amended.2 ["x", "x", "x"] "x" (by decide) (by decide)⟩

/-- Claim C6: splitting a scanner block on the empty-string sentinel fails
when no sentinel occurs (first conjunct, also covering the empty block) or
when fewer than three sections result (second conjunct); with three or more
sections, exactly the first three become (stats, raw, fit) and the rest are
ignored (third conjunct). -/
theorem claim_C6_sections :
    (∀ blockLines : List String, "" ∉ blockLines →
      isOkE (takeSections blockLines) = false) ∧
    (∀ (blockLines : List String) (secs : List (List String)),
      split blockLines "" = Except.ok secs → secs.length < 3 →
      isOkE (takeSections blockLines) = false) ∧
    (∀ (blockLines : List String) (s1 s2 s3 : List String) (rest : List (List String)),
      split blockLines "" = Except.ok (s1 :: s2 :: s3 :: rest) →
      takeSections blockLines = Except.ok (s1, s2, s3)) := by
  refine ⟨?_, ?_, ?_⟩
  · intro blockLines h
    match hb : blockLines with
    | [] => rfl
    | first :: rest =>
      rw [takeSections, split_no_token_error (first :: rest) "" (List.cons_ne_nil first rest) h]
      rfl
  · intro blockLines secs hsp hlen
    rw [takeSections, hsp]
    match secs, hlen with
    | [], _ => rfl
    | [a], _ => rfl
    | [a, b], _ => rfl
    | a :: b :: c :: rest, hlen =>
      rw [List.length_cons, List.length_cons, List.length_cons] at hlen
      omega
  · intro blockLines s1 s2 s3 rest hsp
    rw [takeSections, hsp]
    rfl

/-- Claim C6 witness: the three conjuncts evaluated at concrete blocks — a
sentinel-free block, a block with only two sections, and a block with four
sections whose fourth section `["d"]` is ignored. -/
theorem claim_C6_witness :
    isOkE (takeSections ["a", "b"]) = false ∧
      isOkE (takeSections ["a", "", "b"]) = false ∧
      takeSections ["a", "", "b", "", "c", "", "d"] = Except.ok (["a"], ["b"], ["c"]) :=
  ⟨claim_C6_sections.1 ["a", "b"] (by decide),
   claim_C6_sections.2.1 ["a", "", "b"] [["a"], ["b"]] (by decide) (by decide),
   claim_C6_sections.2.2 ["a", "", "b", "", "c", "", "d"] ["a"] ["b"] ["c"] [["d"]] (by decide)⟩

theorem append_right_ne (n : String) {a b : String} (h : a ≠ b) : n ++ a ≠ n ++ b := by
  intro hh
  apply h
  have hd : (n ++ a).data = (n ++ b).data := by rw [hh]
  rw [String.data_append, String.data_append] at hd
  have hab := List.append_cancel_left hd
  cases a
  cases b
  exact congrArg String.mk hab

theorem alookup_dictInsert (d : List (String × ℚ)) (k : String) (v : ℚ) (k' : String) :
    alookup (dictInsert d k v) k' = if k' = k then some v else alookup d k' := by
  induction d with
  | nil =>
    rw [dictInsert, alookup, alookup]
    by_cases h : k' = k
    · rw [if_pos (h.symm : k = k'), if_pos h]
    · rw [if_neg (fun hc : k = k' => h hc.symm), if_neg h]
      rfl
  | cons a rest ih =>
    rcases a with ⟨ka, va⟩
    rw [dictInsert]
    by_cases hka : ka = k
    · rw [if_pos hka, alookup, alookup]
      by_cases h : k' = k
      · rw [if_pos (h.symm : k = k'), if_pos h]
      · rw [if_neg (fun hc : k = k' => h hc.symm), if_neg h,
          if_neg (fun hc : ka = k' => h (hc.symm.trans hka))]
    · rw [if_neg hka, alookup, alookup]
      by_cases hk : ka = k'
      · rw [if_pos hk, if_pos hk, if_neg (fun hc : k' = k => hka (hk.trans hc))]
      · rw [if_neg hk, if_neg hk, ih]

/-- Claim C5: for a stats line whose first token is a name and whose six
remaining tokens parse as floats v1..v6, the parser stores, under the
lower-cased name, the composite keys with values assigned positionally in
the order (y_fit, y_rms, u_fit, u_rms, x_fit, x_rms). -/
theorem claim_C5_stats (stats : List (String × ℚ)) (line nm t1 t2 t3 t4 t5 t6 : String)
    (v1 v2 v3 v4 v5 v6 : ℚ)
    (hsplit : pySplitWs line = [nm, t1, t2, t3, t4, t5, t6])
    (h1 : parseFloat? t1 = some v1) (h2 : parseFloat? t2 = some v2)
    (h3 : parseFloat? t3 = some v3) (h4 : parseFloat? t4 = some v4)
    (h5 : parseFloat? t5 = some v5) (h6 : parseFloat? t6 = some v6) :
    ∃ stats2, statsLineStep stats line = Except.ok stats2 ∧
      alookup stats2 (pyLower nm ++ "_y_fit") = some v1 ∧
      alookup stats2 (pyLower nm ++ "_y_rms") = some v2 ∧
      alookup stats2 (pyLower nm ++ "_u_fit") = some v3 ∧
      alookup stats2 (pyLower nm ++ "_u_rms") = some v4 ∧
      alookup stats2 (pyLower nm ++ "_x_fit") = some v5 ∧
      alookup stats2 (pyLower nm ++ "_x_rms") = some v6 := by
  have hmap : [t1, t2, t3, t4, t5, t6].mapM (fun t =>
      match parseFloat? t with
      | some q => Except.ok q
      | none => Except.error ("ValueError: could not convert string to float: " ++ t)) =
      Except.ok [v1, v2, v3, v4, v5, v6] := by
    simp only [List.mapM_cons, List.mapM_nil, h1, h2, h3, h4, h5, h6]
    rfl
  rw [statsLineStep, hsplit]
  dsimp only
  rw [hmap]
  dsimp only
  have f : ∀ (a b : String), a ≠ b → pyLower nm ++ a ≠ pyLower nm ++ b :=
    fun _ _ hne => append_right_ne (pyLower nm) hne
  refine ⟨_, rfl, ?_, ?_, ?_, ?_, ?_, ?_⟩
  · rw [alookup_dictInsert, if_neg (f _ _ (by decide)), alookup_dictInsert,
      if_neg (f _ _ (by decide)), alookup_dictInsert, if_pos rfl]
  · rw [alookup_dictInsert, if_neg (f _ _ (by decide)), alookup_dictInsert,
      if_neg (f _ _ (by decide)), alookup_dictInsert, if_neg (f _ _ (by decide)),
      alookup_dictInsert, if_pos rfl]
  · rw [alookup_dictInsert, if_pos rfl]
  · rw [alookup_dictInsert, if_neg (f _ _ (by decide)), alookup_dictInsert, if_pos rfl]
  · rw [alookup_dictInsert, if_neg (f _ _ (by decide)), alookup_dictInsert,
      if_neg (f _ _ (by decide)), alookup_dictInsert, if_neg (f _ _ (by decide)),
      alookup_dictInsert, if_neg (f _ _ (by decide)), alookup_dictInsert, if_pos rfl]
  · rw [alookup_dictInsert, if_neg (f _ _ (by decide)), alookup_dictInsert,
      if_neg (f _ _ (by decide)), alookup_dictInsert, if_neg (f _ _ (by decide)),
      alookup_dictInsert, if_neg (f _ _ (by decide)), alookup_dictInsert,
      if_neg (f _ _ (by decide)), alookup_dictInsert, if_pos rfl]

/-- Claim C5 witness: the line `"Sigma 10 20 30 40 50 60"` yields
sigma_y_fit=10, sigma_y_rms=20, sigma_u_fit=30, sigma_u_rms=40,
sigma_x_fit=50, sigma_x_rms=60. -/
theorem claim_C5_witness :
    ∃ stats2, statsLineStep [] "Sigma 10 20 30 40 50 60" = Except.ok stats2 ∧
      alookup stats2 "sigma_y_fit" = some 10 ∧
      alookup stats2 "sigma_y_rms" = some 20 ∧
      alookup stats2 "sigma_u_fit" = some 30 ∧
      alookup stats2 "sigma_u_rms" = some 40 ∧
      alookup stats2 "sigma_x_fit" = some 50 ∧
      alookup stats2 "sigma_x_rms" = some 60 :=
  claim_C5_stats [] "Sigma 10 20 30 40 50 60" "Sigma" "10" "20" "30" "40" "50" "60"
    10 20 30 40 50 60 (by decide) (by decide) (by decide) (by decide)
    (by decide) (by decide) (by decide)

theorem natDigitsAux_len1 (f n : Nat) (hn : n < 10) (hf : 1 ≤ f) :
    natDigitsAux f n = [Nat.digitChar n] := by
  match f, hf with
  | f' + 1, _ =>
    rw [natDigitsAux, if_pos hn]

theorem natDigitsAux_len2 (f n : Nat) (hlo : 10 ≤ n) (hhi : n < 100) (hf : 2 ≤ f) :
    (natDigitsAux f n).length = 2 := by
  match f, hf with
  | f' + 1, hf =>
    rw [natDigitsAux, if_neg (by omega)]
    rw [natDigitsAux_len1 f' (n / 10) (by omega) (by omega)]
    rfl

theorem natDigitsAux_len3 (f n : Nat) (hlo : 100 ≤ n) (hhi : n < 1000) (hf : 3 ≤ f) :
    (natDigitsAux f n).length = 3 := by
  match f, hf with
  | f' + 1, hf =>
    rw [natDigitsAux, if_neg (by omega)]
    rw [List.length_append, natDigitsAux_len2 f' (n / 10) (by omega) (by omega) (by omega)]
    rfl

theorem natDigitsAux_len4 (f n : Nat) (hlo : 1000 ≤ n) (hhi : n < 10000) (hf : 4 ≤ f) :
    (natDigitsAux f n).length = 4 := by
  match f, hf with
  | f' + 1, hf =>
    rw [natDigitsAux, if_neg (by omega)]
    rw [List.length_append, natDigitsAux_len3 f' (n / 10) (by omega) (by omega) (by omega)]
    rfl

theorem intRepr_len4 (y : Int) (hlo : 1000 ≤ y) (hhi : y ≤ 9999) :
    (intRepr y).data.length = 4 := by
  rw [intRepr, if_neg (by omega)]
  show (natDigitsAux (y.toNat + 1) y.toNat).length = 4
  exact natDigitsAux_len4 (y.toNat + 1) y.toNat (by omega) (by omega) (by omega)

theorem fmt02_len2 (n : Int) (hlo : 0 ≤ n) (hhi : n ≤ 99) :
    (fmt02 n).data.length = 2 := by
  rw [fmt02]
  by_cases h : 0 ≤ n ∧ n < 10
  · rw [if_pos h]
    rw [String.data_append]
    rw [intRepr, if_neg (by omega)]
    show ("0".data ++ natDigitsAux (n.toNat + 1) n.toNat).length = 2
    rw [natDigitsAux_len1 (n.toNat + 1) n.toNat (by omega) (by omega)]
    rfl
  · rw [if_neg h]
    rw [intRepr, if_neg (by omega)]
    show (natDigitsAux (n.toNat + 1) n.toNat).length = 2
    exact natDigitsAux_len2 (n.toNat + 1) n.toNat (by omega) (by omega) (by omega)

theorem strExt {a b : String} (h : a.data = b.data) : a = b := by
  cases a
  cases b
  exact congrArg String.mk h

/-- Claim C8: for a filename decomposing along the pattern
`WireAnalysisFmt-<Y>.<M>.<D>_<h>.<m>.<s>.pta…` into six integer fields in
`datetime` range, with the four-digit year of the filename contract, the
extraction produces the calendar timestamp with exactly those fields, and
the short form is the last two digits of the year followed by month, day,
hour, minute and second each zero-padded to width two — twelve characters. -/
theorem claim_C8_timestamp (filename tail date time0 time sy smo sd sh smi ss : String)
    (y mo d hr mi s : Int)
    (hsplit1 : lastD (pySplitOn filename "WireAnalysisFmt-") = tail)
    (hsplit2 : pySplitOn tail "_" = [date, time0])
    (hsplit3 : headD (pySplitOn time0 ".pta") = time)
    (hdate : pySplitOn date "." = [sy, smo, sd])
    (htime : pySplitOn time "." = [sh, smi, ss])
    (hy : parseInt? sy = some y) (hmo : parseInt? smo = some mo)
    (hd : parseInt? sd = some d) (hh : parseInt? sh = some hr)
    (hmi : parseInt? smi = some mi) (hs : parseInt? ss = some s)
    (hy1000 : 1000 ≤ y) (hy9999 : y ≤ 9999) (hmo1 : 1 ≤ mo) (hmo12 : mo ≤ 12)
    (hd1 : 1 ≤ d) (hdm : d ≤ daysInMonth y mo) (hh0 : 0 ≤ hr) (hh23 : hr ≤ 23)
    (hmi0 : 0 ≤ mi) (hmi59 : mi ≤ 59) (hs0 : 0 ≤ s) (hs59 : s ≤ 59) :
    ∃ short : String,
      parseTimestamp filename = Except.ok (⟨y, mo, d, hr, mi, s⟩, short) ∧
      short = pyDrop (intRepr y) 2 ++ fmt02 mo ++ fmt02 d ++ fmt02 hr ++ fmt02 mi ++ fmt02 s ∧
      short.data.length = 12 := by
  have hmapd : (pySplitOn date ".").mapM parseInt? = some [y, mo, d] := by
    rw [hdate]
    simp only [List.mapM_cons, List.mapM_nil, hy, hmo, hd]
    rfl
  have hmapt : (pySplitOn time ".").mapM parseInt? = some [hr, mi, s] := by
    rw [htime]
    simp only [List.mapM_cons, List.mapM_nil, hh, hmi, hs]
    rfl
  have hdt : mkDatetime y mo d hr mi s = Except.ok ⟨y, mo, d, hr, mi, s⟩ := by
    rw [mkDatetime, if_pos]
    exact ⟨by omega, by omega, hmo1, hmo12, hd1, hdm, hh0, hh23, hmi0, hmi59, hs0, hs59⟩
  have hylen : (intRepr y).data.length = 4 := intRepr_len4 y hy1000 hy9999
  have hdaysle : daysInMonth y mo ≤ 31 := by
    rw [daysInMonth]
    split_ifs <;> omega
  have l1 := fmt02_len2 mo (by omega) (by omega)
  have l2 := fmt02_len2 d (by omega) (by omega)
  have l3 := fmt02_len2 hr (by omega) (by omega)
  have l4 := fmt02_len2 mi (by omega) (by omega)
  have l5 := fmt02_len2 s (by omega) (by omega)
  have hdata : (intRepr y ++ fmt02 mo ++ fmt02 d ++ fmt02 hr ++ fmt02 mi ++ fmt02 s).data.drop 2
      = (intRepr y).data.drop 2 ++ (fmt02 mo).data ++ (fmt02 d).data ++ (fmt02 hr).data
        ++ (fmt02 mi).data ++ (fmt02 s).data := by
    rw [String.data_append, String.data_append, String.data_append, String.data_append,
      String.data_append]
    rw [List.drop_append_of_le_length (by simp only [List.length_append]; omega)]
    rw [List.drop_append_of_le_length (by simp only [List.length_append]; omega)]
    rw [List.drop_append_of_le_length (by simp only [List.length_append]; omega)]
    rw [List.drop_append_of_le_length (by simp only [List.length_append]; omega)]
    rw [List.drop_append_of_le_length (by omega)]
  have hshort : pyDrop (intRepr y ++ fmt02 mo ++ fmt02 d ++ fmt02 hr ++ fmt02 mi ++ fmt02 s) 2
      = pyDrop (intRepr y) 2 ++ fmt02 mo ++ fmt02 d ++ fmt02 hr ++ fmt02 mi ++ fmt02 s := by
    apply strExt
    show (intRepr y ++ fmt02 mo ++ fmt02 d ++ fmt02 hr ++ fmt02 mi ++ fmt02 s).data.drop 2 = _
    rw [hdata]
    rw [String.data_append, String.data_append, String.data_append, String.data_append,
      String.data_append]
    rfl
  refine ⟨pyDrop (intRepr y ++ fmt02 mo ++ fmt02 d ++ fmt02 hr ++ fmt02 mi ++ fmt02 s) 2,
    ?_, hshort, ?_⟩
  · rw [parseTimestamp]
    rw [hsplit1, hsplit2]
    dsimp only
    rw [hsplit3, hmapd]
    dsimp only
    rw [hmapt]
    dsimp only
    rw [hdt]
  · show ((intRepr y ++ fmt02 mo ++ fmt02 d ++ fmt02 hr ++ fmt02 mi ++ fmt02 s).data.drop 2).length = 12
    rw [hdata]
    simp only [List.length_append, List.length_drop]
    omega

/-- Claim C8 witness: the filename
`"WireAnalysisFmt-2023.02.27_23.57.00.pta.txt"` yields year 2023, month 2,
day 27, hour 23, minute 57, second 0, with a twelve-character short form. -/
theorem claim_C8_witness :
    ∃ short : String,
      parseTimestamp sampleName = Except.ok (⟨2023, 2, 27, 23, 57, 0⟩, short) ∧
      short = pyDrop (intRepr 2023) 2 ++ fmt02 2 ++ fmt02 27 ++ fmt02 23 ++ fmt02 57 ++ fmt02 0 ∧
      short.data.length = 12 :=
  claim_C8_timestamp sampleName "2023.02.27_23.57.00.pta.txt" "2023.02.27" "23.57.00.pta.txt"
    "23.57.00" "2023" "02" "27" "23" "57" "00" 2023 2 27 23 57 0
    (by decide) (by decide) (by decide) (by decide) (by decide) (by decide) (by decide)
    (by decide) (by decide) (by decide) (by decide) (by decide) (by decide) (by decide)
    (by decide) (by decide) (by decide) (by decide) (by decide) (by decide) (by decide)
    (by decide) (by decide)

theorem transpose_mem_length (rows : List (List ℚ)) (c : List ℚ) (hc : c ∈ transpose rows) :
    c.length = rows.length := by
  match rows with
  | [] => exact absurd hc (List.not_mem_nil c)
  | r :: rs =>
    rw [transpose] at hc
    rcases List.mem_map.1 hc with ⟨j, _, hj⟩
    rw [← hj, List.length_map]

theorem unpack7_ok : ∀ (cols : List (List ℚ)) (c1 c2 c3 c4 c5 c6 c7 : List ℚ),
    unpack7 cols = Except.ok (c1, c2, c3, c4, c5, c6, c7) → cols = [c1, c2, c3, c4, c5, c6, c7] := by
  intro cols
  match cols with
  | [] => intro c1 c2 c3 c4 c5 c6 c7 h; exact Except.noConfusion h
  | [d1] => intro c1 c2 c3 c4 c5 c6 c7 h; exact Except.noConfusion h
  | [d1, d2] => intro c1 c2 c3 c4 c5 c6 c7 h; exact Except.noConfusion h
  | [d1, d2, d3] => intro c1 c2 c3 c4 c5 c6 c7 h; exact Except.noConfusion h
  | [d1, d2, d3, d4] => intro c1 c2 c3 c4 c5 c6 c7 h; exact Except.noConfusion h
  | [d1, d2, d3, d4, d5] => intro c1 c2 c3 c4 c5 c6 c7 h; exact Except.noConfusion h
  | [d1, d2, d3, d4, d5, d6] => intro c1 c2 c3 c4 c5 c6 c7 h; exact Except.noConfusion h
  | [d1, d2, d3, d4, d5, d6, d7] =>
    intro c1 c2 c3 c4 c5 c6 c7 h
    rw [unpack7] at h
    cases h
    rfl
  | d1 :: d2 :: d3 :: d4 :: d5 :: d6 :: d7 :: d8 :: ds =>
    intro c1 c2 c3 c4 c5 c6 c7 h
    exact Except.noConfusion h

/-- Claim C1 amended: in every successfully parsed scanner block, the stored
`fy`, `fu`, `fx` are columns 2-4 of the transposed raw section, while the
stored position arrays `x`, `y`, `u` are columns 5-7 of the transposed FIT
section (the source rebinds `x, y, u` at line 150, discarding the raw
section's position columns `xR, yR, uR`); consequently `x`, `y`, `u` share
their length with the fit-amplitude arrays (the fit row count), and `fx`,
`fy`, `fu` share the raw row count. -/
theorem claim_C1_positions (blockLines : List String) (p : Profile)
    (h : parseProfile blockLines = Except.ok p) :
    ∃ secStats secRaw secFit data_arr_raw data_arr_fit posR xR yR uR posF,
      takeSections blockLines = Except.ok (secStats, secRaw, secFit) ∧
      (secRaw.drop 2).mapM string_to_list = Except.ok data_arr_raw ∧
      transpose data_arr_raw = [posR, p.fy, p.fu, p.fx, xR, yR, uR] ∧
      (secFit.drop 2).mapM string_to_list = Except.ok data_arr_fit ∧
      transpose data_arr_fit = [posF, p.fy_fit, p.fu_fit, p.fx_fit, p.x, p.y, p.u] ∧
      p.fx.length = data_arr_raw.length ∧ p.fy.length = data_arr_raw.length ∧
      p.fu.length = data_arr_raw.length ∧
      p.x.length = data_arr_fit.length ∧ p.y.length = data_arr_fit.length ∧
      p.u.length = data_arr_fit.length ∧
      p.fx_fit.length = data_arr_fit.length ∧ p.fy_fit.length = data_arr_fit.length ∧
      p.fu_fit.length = data_arr_fit.length := by
  rw [parseProfile] at h
  cases hts : takeSections blockLines with
  | error e => rw [hts] at h; exact Except.noConfusion h
  | ok secs =>
    rcases secs with ⟨secStats, secRaw, secFit⟩
    rw [hts] at h
    dsimp only at h
    cases hraw : (secRaw.drop 2).mapM string_to_list with
    | error e => rw [hraw] at h; exact Except.noConfusion h
    | ok data_arr_raw =>
      rw [hraw] at h
      dsimp only at h
      cases hu1 : unpack7 (transpose data_arr_raw) with
      | error e => rw [hu1] at h; exact Except.noConfusion h
      | ok t1 =>
        rcases t1 with ⟨posR, fy, fu, fx, xR, yR, uR⟩
        rw [hu1] at h
        dsimp only at h
        cases hfit : (secFit.drop 2).mapM string_to_list with
        | error e => rw [hfit] at h; exact Except.noConfusion h
        | ok data_arr_fit =>
          rw [hfit] at h
          dsimp only at h
          cases hu2 : unpack7 (transpose data_arr_fit) with
          | error e => rw [hu2] at h; exact Except.noConfusion h
          | ok t2 =>
            rcases t2 with ⟨posF, fy_fit, fu_fit, fx_fit, x, y, u⟩
            rw [hu2] at h
            dsimp only at h
            cases hst : (secStats.drop 2).foldlM statsLineStep [] with
            | error e => rw [hst] at h; exact Except.noConfusion h
            | ok stats =>
              rw [hst] at h
              dsimp only at h
              cases h
              have e1 := unpack7_ok _ _ _ _ _ _ _ _ hu1
              have e2 := unpack7_ok _ _ _ _ _ _ _ _ hu2
              refine ⟨secStats, secRaw, secFit, data_arr_raw, data_arr_fit,
                posR, xR, yR, uR, posF, rfl, hraw, e1, hfit, e2, ?_, ?_, ?_, ?_, ?_, ?_, ?_, ?_, ?_⟩
              · exact transpose_mem_length data_arr_raw fx (by rw [e1]; simp)
              · exact transpose_mem_length data_arr_raw fy (by rw [e1]; simp)
              · exact transpose_mem_length data_arr_raw fu (by rw [e1]; simp)
              · exact transpose_mem_length data_arr_fit x (by rw [e2]; simp)
              · exact transpose_mem_length data_arr_fit y (by rw [e2]; simp)
              · exact transpose_mem_length data_arr_fit u (by rw [e2]; simp)
              · exact transpose_mem_length data_arr_fit fx_fit (by rw [e2]; simp)
              · exact transpose_mem_length data_arr_fit fy_fit (by rw [e2]; simp)
              · exact transpose_mem_length data_arr_fit fu_fit (by rw [e2]; simp)

set_option maxRecDepth 100000

/-- Claim C1 counterexample: in the sample file the WS02 block's raw-section
row is `"0 1 2 3 4 5 6"`, so the claim predicts x=[4], y=[5], u=[6]; the
parsed profile instead stores x=[40], y=[50], u=[60], taken from the fit row
`"0 1 2 3 40 50 60"` — only fy=[1], fu=[2], fx=[3] come from the raw row. -/
theorem claim_C1_counterexample :
    (read_file sampleName sampleLines).map
      (fun m => (alookup m.profiles "RTBT_Diag:WS02").map
        (fun p => (p.x, p.y, p.u))) =
      Except.ok (some ([40], [50], [60])) ∧
    (read_file sampleName sampleLines).map
      (fun m => (alookup m.profiles "RTBT_Diag:WS02").map
        (fun p => (p.fx, p.fy, p.fu))) =
      Except.ok (some ([3], [1], [2])) := by
  constructor <;> decide

/-- Claim C1 amended, witness: the column provenance evaluated on the sample
scanner block. -/
theorem claim_C1_witness :
    ∃ secStats secRaw secFit data_arr_raw data_arr_fit posR xR yR uR posF,
      takeSections sampleBlock = Except.ok (secStats, secRaw, secFit) ∧
      (secRaw.drop 2).mapM string_to_list = Except.ok data_arr_raw ∧
      transpose data_arr_raw = [posR, (okD (parseProfile sampleBlock)).fy,
        (okD (parseProfile sampleBlock)).fu, (okD (parseProfile sampleBlock)).fx, xR, yR, uR] ∧
      (secFit.drop 2).mapM string_to_list = Except.ok data_arr_fit ∧
      transpose data_arr_fit = [posF, (okD (parseProfile sampleBlock)).fy_fit,
        (okD (parseProfile sampleBlock)).fu_fit, (okD (parseProfile sampleBlock)).fx_fit,
        (okD (parseProfile sampleBlock)).x, (okD (parseProfile sampleBlock)).y,
        (okD (parseProfile sampleBlock)).u] ∧
      (okD (parseProfile sampleBlock)).fx.length = data_arr_raw.length ∧
      (okD (parseProfile sampleBlock)).fy.length = data_arr_raw.length ∧
      (okD (parseProfile sampleBlock)).fu.length = data_arr_raw.length ∧
      (okD (parseProfile sampleBlock)).x.length = data_arr_fit.length ∧
      (okD (parseProfile sampleBlock)).y.length = data_arr_fit.length ∧
      (okD (parseProfile sampleBlock)).u.length = data_arr_fit.length ∧
      (okD (parseProfile sampleBlock)).fx_fit.length = data_arr_fit.length ∧
      (okD (parseProfile sampleBlock)).fy_fit.length = data_arr_fit.length ∧
      (okD (parseProfile sampleBlock)).fu_fit.length = data_arr_fit.length :=
  claim_C1_positions sampleBlock (okD (parseProfile sampleBlock)) (by decide)

theorem except_bind_err {α β : Type} (e : String) (f : α → Except String β) :
    (Except.error e >>= f) = Except.error e := rfl

theorem except_bind_ok {α β : Type} (a : α) (f : α → Except String β) :
    (Except.ok a >>= f) = f a := rfl

theorem isOkE_false_of_not_ok {α : Type} (e : Except String α)
    (h : ∀ v, e ≠ Except.ok v) : isOkE e = false := by
  cases e with
  | ok v => exact absurd rfl (h v)
  | error msg => rfl

theorem mapM_not_ok_of_mem {α β : Type} (f : α → Except String β) :
    ∀ (xs : List α) (x : α), x ∈ xs → (∀ b, f x ≠ Except.ok b) →
      ∀ ys, xs.mapM f ≠ Except.ok ys := by
  intro xs
  induction xs with
  | nil => intro x hx; exact absurd hx (List.not_mem_nil x)
  | cons a rest ih =>
    intro x hx hf ys h
    rw [List.mapM_cons] at h
    rcases List.mem_cons.1 hx with hxa | hxr
    · subst hxa
      cases hfa : f x with
      | ok b => exact absurd hfa (hf b)
      | error e =>
        rw [hfa, except_bind_err] at h
        exact Except.noConfusion h
    · cases hfa : f a with
      | error e =>
        rw [hfa, except_bind_err] at h
        exact Except.noConfusion h
      | ok b =>
        rw [hfa, except_bind_ok] at h
        cases hrm : rest.mapM f with
        | error e =>
          rw [hrm, except_bind_err] at h
          exact Except.noConfusion h
        | ok zs => exact absurd hrm (ih x hxr hf zs)

theorem string_to_list_err (line tok : String) (htok : tok ∈ pySplitWs line)
    (hbad : parseFloat? tok = none) : ∀ v, string_to_list line ≠ Except.ok v := by
  intro v
  apply mapM_not_ok_of_mem _ (pySplitWs line) tok htok
  intro b
  show (match parseFloat? tok with
    | some q => Except.ok q
    | none => Except.error ("ValueError: could not convert string to float: " ++ tok)) ≠
      Except.ok b
  rw [hbad]
  exact fun hc => Except.noConfusion hc

/-- Claim C7 amended: every whitespace token of a raw or fit line is passed
through `float`, so a single non-numeric token anywhere on the line makes the
line conversion fail — non-numeric tokens are never silently coerced or
skipped (first conjunct); however, the number of columns retained by the
transpose is the minimum row length, so extra numeric tokens on a longer row
are silently dropped, and the error is a plain conversion error that does
not name the scanner ID (second conjunct gives the truncation law). -/
theorem claim_C7_nonnumeric :
    (∀ line tok : String, tok ∈ pySplitWs line → parseFloat? tok = none →
      isOkE (string_to_list line) = false) ∧
    (∀ (r : List ℚ) (rs : List (List ℚ)),
      (transpose (r :: rs)).length = rs.foldl (fun m row => min m row.length) r.length) := by
  constructor
  · intro line tok htok hbad
    exact isOkE_false_of_not_ok _ (string_to_list_err line tok htok hbad)
  · intro r rs
    rw [transpose, List.length_map, List.length_range]

/-- Claim C7 counterexample: in the ragged sample file the second raw row
`"7 8 9 10 11 12 13 99"` carries an extra numeric token, yet parsing
succeeds and the `99` appears nowhere in the profile — the token is silently
dropped by the transpose, contradicting the claim that extra tokens on a raw
row are never silently dropped. -/
theorem claim_C7_counterexample :
    (read_file sampleName raggedLines).map
      (fun m => (alookup m.profiles "RTBT_Diag:WS07").map
        (fun p => (p.fx, p.fy, p.fu))) =
      Except.ok (some ([3, 10], [1, 8], [2, 9])) ∧
    (read_file sampleName raggedLines).map
      (fun m => (alookup m.profiles "RTBT_Diag:WS07").map
        (fun p => (p.x, p.y, p.u))) =
      Except.ok (some ([4, 11], [5, 12], [6, 13])) := by
  constructor <;> decide

/-- Claim C7 amended, witness: the non-numeric token `abc` makes the line
conversion fail, and a two-row array with rows of lengths 1 and 2 keeps only
one column. -/
theorem claim_C7_witness :
    isOkE (string_to_list "1 abc 3") = false ∧ (transpose [[1], [2, 3]]).length = 1 :=
  ⟨claim_C7_nonnumeric.1 "1 abc 3" "abc" (by decide) (by decide),
   claim_C7_nonnumeric.2 [1] [[2, 3]]⟩

theorem mapM_ok_length {α β : Type} (f : α → Except String β) :
    ∀ (xs : List α) (ys : List β), xs.mapM f = Except.ok ys → ys.length = xs.length := by
  intro xs
  induction xs with
  | nil =>
    intro ys h
    rw [List.mapM_nil] at h
    cases h
    rfl
  | cons a rest ih =>
    intro ys h
    rw [List.mapM_cons] at h
    cases hfa : f a with
    | error e =>
      rw [hfa, except_bind_err] at h
      exact Except.noConfusion h
    | ok b =>
      rw [hfa, except_bind_ok] at h
      cases hrm : rest.mapM f with
      | error e =>
        rw [hrm, except_bind_err] at h
        exact Except.noConfusion h
      | ok zs =>
        rw [hrm, except_bind_ok] at h
        cases h
        rw [List.length_cons, List.length_cons, ih zs hrm]

theorem foldlM_not_ok_of_mem {β : Type} (g : β → String → Except String β) :
    ∀ (xs : List String) (x : String), x ∈ xs → (∀ b c, g b x ≠ Except.ok c) →
      ∀ (b0 : β) (res : β), xs.foldlM g b0 ≠ Except.ok res := by
  intro xs
  induction xs with
  | nil => intro x hx; exact absurd hx (List.not_mem_nil x)
  | cons a rest ih =>
    intro x hx hg b0 res h
    rw [List.foldlM_cons] at h
    rcases List.mem_cons.1 hx with hxa | hxr
    · subst hxa
      cases hga : g b0 x with
      | ok c => exact absurd hga (hg b0 c)
      | error e =>
        rw [hga, except_bind_err] at h
        exact Except.noConfusion h
    · cases hga : g b0 a with
      | error e =>
        rw [hga, except_bind_err] at h
        exact Except.noConfusion h
      | ok b1 =>
        rw [hga, except_bind_ok] at h
        exact absurd h (ih x hxr hg b1 res)

theorem statsLineStep_err (line : String) (hbad : (pySplitWs line).length ≠ 7) :
    ∀ (d d2 : List (String × ℚ)), statsLineStep d line ≠ Except.ok d2 := by
  intro d d2 h
  rw [statsLineStep] at h
  cases hsp : pySplitWs line with
  | nil =>
    rw [hsp] at h
    exact Except.noConfusion h
  | cons tok0 restToks =>
    rw [hsp] at h
    dsimp only at h
    cases hm : restToks.mapM (fun t =>
        match parseFloat? t with
        | some q => Except.ok q
        | none => Except.error ("ValueError: could not convert string to float: " ++ t)) with
    | error e =>
      rw [hm] at h
      exact Except.noConfusion h
    | ok vals =>
      rw [hm] at h
      dsimp only at h
      have hlen : vals.length = restToks.length := mapM_ok_length _ restToks vals hm
      have hlen7 : vals.length ≠ 6 := by
        rw [hsp] at hbad
        rw [List.length_cons] at hbad
        omega
      match vals, hlen7 with
      | [], _ => exact Except.noConfusion h
      | [v1], _ => exact Except.noConfusion h
      | [v1, v2], _ => exact Except.noConfusion h
      | [v1, v2, v3], _ => exact Except.noConfusion h
      | [v1, v2, v3, v4], _ => exact Except.noConfusion h
      | [v1, v2, v3, v4, v5], _ => exact Except.noConfusion h
      | [v1, v2, v3, v4, v5, v6], hlen7 => exact absurd rfl hlen7
      | v1 :: v2 :: v3 :: v4 :: v5 :: v6 :: v7 :: vs, _ => exact Except.noConfusion h

theorem parseProfile_err (blockLines : List String) (secStats secRaw secFit : List String)
    (hts : takeSections blockLines = Except.ok (secStats, secRaw, secFit))
    (hbad : (∃ l ∈ secStats.drop 2, (pySplitWs l).length ≠ 7) ∨
      (∃ l ∈ secRaw.drop 2, ∃ t ∈ pySplitWs l, parseFloat? t = none)) :
    ∀ p, parseProfile blockLines ≠ Except.ok p := by
  intro p h
  rw [parseProfile, hts] at h
  dsimp only at h
  cases hraw : (secRaw.drop 2).mapM string_to_list with
  | error e =>
    rw [hraw] at h
    exact Except.noConfusion h
  | ok data_arr_raw =>
    rcases hbad with hstats | ⟨l, hl, t, ht, hbadt⟩
    case ok.inr.intro.intro.intro.intro =>
      exact absurd hraw
        (mapM_not_ok_of_mem string_to_list (secRaw.drop 2) l hl
          (string_to_list_err l t ht hbadt) data_arr_raw)
    case ok.inl =>
      rcases hstats with ⟨l, hl, hbadl⟩
      rw [hraw] at h
      dsimp only at h
      cases hu1 : unpack7 (transpose data_arr_raw) with
      | error e =>
        rw [hu1] at h
        exact Except.noConfusion h
      | ok t1 =>
        rcases t1 with ⟨posR, fy, fu, fx, xR, yR, uR⟩
        rw [hu1] at h
        dsimp only at h
        cases hfit : (secFit.drop 2).mapM string_to_list with
        | error e =>
          rw [hfit] at h
          exact Except.noConfusion h
        | ok data_arr_fit =>
          rw [hfit] at h
          dsimp only at h
          cases hu2 : unpack7 (transpose data_arr_fit) with
          | error e =>
            rw [hu2] at h
            exact Except.noConfusion h
          | ok t2 =>
            rcases t2 with ⟨posF, fy_fit, fu_fit, fx_fit, x, y, u⟩
            rw [hu2] at h
            dsimp only at h
            cases hst : (secStats.drop 2).foldlM statsLineStep [] with
            | error e =>
              rw [hst] at h
              exact Except.noConfusion h
            | ok stats =>
              exact absurd hst
                (foldlM_not_ok_of_mem statsLineStep (secStats.drop 2) l hl
                  (fun b c => statsLineStep_err l hbadl b c) [] stats)

theorem appendAt_keys (d : List (String × List String)) (k : String) (v : String) :
    (appendAt d k v).map Prod.fst =
      if k ∈ d.map Prod.fst then d.map Prod.fst else d.map Prod.fst ++ [k] := by
  induction d with
  | nil => simp [appendAt]
  | cons a rest ih =>
    rcases a with ⟨k0, vs⟩
    rw [appendAt]
    by_cases hk : k0 = k
    · subst hk
      rw [if_pos rfl, List.map_cons, List.map_cons]
      rw [if_pos (List.mem_cons_self _ _)]
    · rw [if_neg hk, List.map_cons, List.map_cons, ih]
      by_cases hm : k ∈ rest.map Prod.fst
      · rw [if_pos hm, if_pos (List.mem_cons_of_mem _ hm)]
      · rw [if_neg hm, if_neg ?_, List.cons_append]
        intro hc
        rcases List.mem_cons.1 hc with h1 | h2
        · exact hk h1.symm
        · exact hm h2

theorem appendAt_nodup (d : List (String × List String)) (k : String) (v : String)
    (hn : (d.map Prod.fst).Nodup) : ((appendAt d k v).map Prod.fst).Nodup := by
  rw [appendAt_keys]
  by_cases hm : k ∈ d.map Prod.fst
  · rw [if_pos hm]
    exact hn
  · rw [if_neg hm]
    refine List.nodup_append.2 ⟨hn, List.nodup_singleton k, ?_⟩
    intro x hx hxk
    rw [List.mem_singleton] at hxk
    exact hm (hxk ▸ hx)

theorem collect_keys_nodup :
    ∀ (ls : List String) (w : Option String) (p : Option Int)
      (d d' : List (String × List String)) (p' : Option Int),
      (d.map Prod.fst).Nodup → collect ls w p d = Except.ok (d', p') →
      (d'.map Prod.fst).Nodup := by
  intro ls
  induction ls with
  | nil =>
    intro w p d d' p' hn h
    rw [collect.eq_def] at h
    dsimp only at h
    cases h
    exact hn
  | cons l0 rest ih =>
    intro w p d d' p' hn h
    rw [collect.eq_def] at h
    dsimp only at h
    by_cases hmk : pyStartsWith (pyRstrip l0) "RTBT_Diag" = true
    · rw [if_pos hmk] at h
      exact ih _ _ d d' p' hn h
    · rw [if_neg hmk] at h
      have hn1 : ((match w with
          | some k => appendAt d k (pyRstrip l0)
          | none => d).map Prod.fst).Nodup := by
        cases w with
        | none => exact hn
        | some k => exact appendAt_nodup d k (pyRstrip l0) hn
      by_cases hpv : pyStartsWith (pyRstrip l0) "PVLoggerID" = true
      · rw [if_pos hpv] at h
        cases hg : (pySplitOn (pyRstrip l0) "=").get? 1 with
        | none =>
          rw [hg] at h
          exact Except.noConfusion h
        | some tok =>
          rw [hg] at h
          dsimp only at h
          cases hpi : parseInt? tok with
          | none =>
            rw [hpi] at h
            exact Except.noConfusion h
          | some n =>
            rw [hpi] at h
            exact ih _ _ _ d' p' hn1 h
      · rw [if_neg hpv] at h
        exact ih _ _ _ d' p' hn1 h

theorem alookup_of_mem_nodup {β : Type} :
    ∀ (d : List (String × β)) (k : String) (v : β), (k, v) ∈ d → (d.map Prod.fst).Nodup →
      alookup d k = some v := by
  intro d
  induction d with
  | nil => intro k v hm _; exact absurd hm (List.not_mem_nil _)
  | cons a rest ih =>
    rcases a with ⟨k0, v0⟩
    intro k v hm hn
    rw [List.map_cons] at hn
    rcases List.mem_cons.1 hm with heq | hmr
    · cases heq
      rw [alookup, if_pos rfl]
    · have hk0 : k0 ≠ k := by
        intro hc
        subst hc
        exact (List.nodup_cons.1 hn).1 (List.mem_map.2 ⟨(k0, v), hmr, rfl⟩)
      rw [alookup, if_neg hk0]
      exact ih k v hmr (List.nodup_cons.1 hn).2

theorem buildProfiles_not_ok (d : List (String × List String)) (k : String) (bls : List String)
    (hlk : alookup d k = some bls) (hfail : ∀ p, parseProfile bls ≠ Except.ok p) :
    ∀ (ids : List String), k ∈ ids → ∀ prs, buildProfiles d ids ≠ Except.ok prs := by
  intro ids
  induction ids with
  | nil => intro hk; exact absurd hk (List.not_mem_nil k)
  | cons id0 rest ih =>
    intro hk prs h
    rw [buildProfiles] at h
    rcases List.mem_cons.1 hk with heq | hmr
    · subst heq
      rw [hlk] at h
      dsimp only at h
      cases hp : parseProfile bls with
      | error e =>
        rw [hp] at h
        exact Except.noConfusion h
      | ok p => exact absurd hp (hfail p)
    · cases hl0 : alookup d id0 with
      | none =>
        rw [hl0] at h
        exact Except.noConfusion h
      | some bl0 =>
        rw [hl0] at h
        dsimp only at h
        cases hp : parseProfile bl0 with
        | error e =>
          rw [hp] at h
          exact Except.noConfusion h
        | ok p =>
          rw [hp] at h
          cases hb : buildProfiles d rest with
          | error e =>
            rw [hb] at h
            exact Except.noConfusion h
          | ok ps => exact absurd hb (ih hmr ps)

/-- Claim C3: whenever some scanner block of the file has a stats line whose
whitespace token count is not name-plus-six, or a raw-section line with a
non-numeric token, the whole Measurement construction fails — no (partial)
value is ever produced. -/
theorem claim_C3_malformed (filename : String) (fileLines : List String)
    (d : List (String × List String)) (pvl : Option Int) (k : String) (bls : List String)
    (secStats secRaw secFit : List String)
    (hcol : collect fileLines none none [] = Except.ok (d, pvl))
    (hmem : (k, bls) ∈ d)
    (hts : takeSections bls = Except.ok (secStats, secRaw, secFit))
    (hbad : (∃ l ∈ secStats.drop 2, (pySplitWs l).length ≠ 7) ∨
      (∃ l ∈ secRaw.drop 2, ∃ t ∈ pySplitWs l, parseFloat? t = none)) :
    isOkE (read_file filename fileLines) = false := by
  have hnodup : (d.map Prod.fst).Nodup :=
    collect_keys_nodup fileLines none none [] d pvl List.nodup_nil hcol
  have hlk : alookup d k = some bls := alookup_of_mem_nodup d k bls hmem hnodup
  have hks : k ∈ pySorted (d.map Prod.fst) := by
    rw [pySorted]
    exact (List.mem_insertionSort pyLeRel).2 (List.mem_map.2 ⟨(k, bls), hmem, rfl⟩)
  have hfail := parseProfile_err bls secStats secRaw secFit hts hbad
  apply isOkE_false_of_not_ok
  intro m h
  rw [read_file] at h
  cases hpt : parseTimestamp filename with
  | error e =>
    rw [hpt] at h
    exact Except.noConfusion h
  | ok ts =>
    rcases ts with ⟨dt, short⟩
    rw [hpt] at h
    dsimp only at h
    rw [hcol] at h
    dsimp only at h
    cases hb : buildProfiles d (pySorted (d.map Prod.fst)) with
    | error e =>
      rw [hb] at h
      exact Except.noConfusion h
    | ok prs => exact absurd hb (buildProfiles_not_ok d k bls hlk hfail _ hks prs)

/-- Claim C3 witness: the file whose stats line `"Sigma 1 2 3 4 5"` has five
value tokens produces no Measurement. -/
theorem claim_C3_witness : isOkE (read_file sampleName badStatsLines) = false :=
  claim_C3_malformed sampleName badStatsLines
    [("RTBT_Diag:WS05",
      [ "Name y_fit y_rms u_fit u_rms x_fit x_rms",
        "---- ----- ----- ----- ----- ----- -----",
        "Sigma 1 2 3 4 5",
        "",
        "pos fx x fy y fu u",
        "--- -- - -- - -- -",
        "0 1 2 3 4 5 6",
        "",
        "pos fx x fy y fu u",
        "--- -- - -- - -- -",
        "0 1 2 3 4 5 6",
        "" ])]
    none "RTBT_Diag:WS05"
    [ "Name y_fit y_rms u_fit u_rms x_fit x_rms",
      "---- ----- ----- ----- ----- ----- -----",
      "Sigma 1 2 3 4 5",
      "",
      "pos fx x fy y fu u",
      "--- -- - -- - -- -",
      "0 1 2 3 4 5 6",
      "",
      "pos fx x fy y fu u",
      "--- -- - -- - -- -",
      "0 1 2 3 4 5 6",
      "" ]
    [ "Name y_fit y_rms u_fit u_rms x_fit x_rms",
      "---- ----- ----- ----- ----- ----- -----",
      "Sigma 1 2 3 4 5" ]
    [ "pos fx x fy y fu u",
      "--- -- - -- - -- -",
      "0 1 2 3 4 5 6" ]
    [ "pos fx x fy y fu u",
      "--- -- - -- - -- -",
      "0 1 2 3 4 5 6" ]
    (by decide) (by decide) (by decide)
    (Or.inl ⟨"Sigma 1 2 3 4 5", by decide, by decide⟩)

theorem isPrefixOf_head (a b : Char) (as bs l : List Char)
    (ha : (a :: as).isPrefixOf l = true) (hb : (b :: bs).isPrefixOf l = true) : a = b := by
  cases l with
  | nil => exact Bool.noConfusion ha
  | cons c cs =>
    simp only [List.isPrefixOf, Bool.and_eq_true, beq_iff_eq] at ha hb
    exact ha.1.trans hb.1.symm

theorem marker_not_pv (t : String) (h : pyStartsWith t "RTBT_Diag" = true) :
    pyStartsWith t "PVLoggerID" = false := by
  by_cases hp : pyStartsWith t "PVLoggerID" = true
  · rw [pyStartsWith] at h hp
    rw [show ("RTBT_Diag").data = 'R' :: "TBT_Diag".data from rfl] at h
    rw [show ("PVLoggerID").data = 'P' :: "VLoggerID".data from rfl] at hp
    exact absurd (isPrefixOf_head 'R' 'P' _ _ _ h hp) (by decide)
  · exact Bool.eq_false_iff.2 (fun hc => hp hc)

/-- Shape of a successful `read_file` run: the timestamp, collection and
per-scanner parse all succeeded, and the record fields are exactly the
produced values. -/
theorem read_file_ok (filename : String) (ls : List String) (m : PTA)
    (h : read_file filename ls = Except.ok m) :
    ∃ dt short d pvl prs,
      parseTimestamp filename = Except.ok (dt, short) ∧
      collect ls none none [] = Except.ok (d, pvl) ∧
      buildProfiles d (pySorted (d.map Prod.fst)) = Except.ok prs ∧
      m = ⟨filename, lastD (pySplitOn filename "/"), dt, short, pvl,
        pySorted (d.map Prod.fst), prs⟩ := by
  rw [read_file] at h
  cases hpt : parseTimestamp filename with
  | error e =>
    rw [hpt] at h
    exact Except.noConfusion h
  | ok ts =>
    rcases ts with ⟨dt, short⟩
    rw [hpt] at h
    dsimp only at h
    cases hcol : collect ls none none [] with
    | error e =>
      rw [hcol] at h
      exact Except.noConfusion h
    | ok dp =>
      rcases dp with ⟨d, pvl⟩
      rw [hcol] at h
      dsimp only at h
      cases hb : buildProfiles d (pySorted (d.map Prod.fst)) with
      | error e =>
        rw [hb] at h
        exact Except.noConfusion h
      | ok prs =>
        rw [hb] at h
        dsimp only at h
        cases h
        exact ⟨dt, short, d, pvl, prs, rfl, rfl, hb, rfl⟩

theorem collect_pvl :
    ∀ (ls : List String) (w : Option String) (p : Option Int)
      (d d' : List (String × List String)) (p' : Option Int),
      collect ls w p d = Except.ok (d', p') →
      (pvLines ls = [] → p' = p) ∧
      (∀ llast, (pvLines ls).getLast? = some llast →
        ∃ tok n, (pySplitOn llast "=").get? 1 = some tok ∧ parseInt? tok = some n ∧
          p' = some n) := by
  intro ls
  induction ls with
  | nil =>
    intro w p d d' p' h
    rw [collect.eq_def] at h
    dsimp only at h
    cases h
    exact ⟨fun _ => rfl, fun llast hc => Option.noConfusion hc⟩
  | cons l0 rest ih =>
    intro w p d d' p' h
    rw [collect.eq_def] at h
    dsimp only at h
    have hpvlines : pvLines (l0 :: rest) =
        if pyStartsWith (pyRstrip l0) "PVLoggerID" = true
        then pyRstrip l0 :: pvLines rest else pvLines rest := by
      rw [pvLines, List.map_cons, List.filter_cons]
      by_cases hc : pyStartsWith (pyRstrip l0) "PVLoggerID" = true
      · rw [if_pos hc, if_pos hc]
        rfl
      · rw [if_neg hc, if_neg hc]
        rfl
    by_cases hmk : pyStartsWith (pyRstrip l0) "RTBT_Diag" = true
    · rw [if_pos hmk] at h
      rw [hpvlines, if_neg (by rw [marker_not_pv (pyRstrip l0) hmk]; exact Bool.noConfusion)]
      exact ih _ _ _ _ _ h
    · rw [if_neg hmk] at h
      by_cases hpv : pyStartsWith (pyRstrip l0) "PVLoggerID" = true
      · rw [if_pos hpv] at h
        rw [hpvlines, if_pos hpv]
        cases hg : (pySplitOn (pyRstrip l0) "=").get? 1 with
        | none =>
          rw [hg] at h
          exact Except.noConfusion h
        | some tok =>
          rw [hg] at h
          dsimp only at h
          cases hpi : parseInt? tok with
          | none =>
            rw [hpi] at h
            exact Except.noConfusion h
          | some n =>
            rw [hpi] at h
            have hih := ih _ _ _ _ _ h
            constructor
            · intro hc
              exact absurd hc (List.cons_ne_nil _ _)
            · intro llast hlast
              cases hrest : pvLines rest with
              | nil =>
                rw [hrest] at hlast
                rw [List.getLast?_singleton] at hlast
                cases hlast
                exact ⟨tok, n, hg, hpi, hih.1 hrest⟩
              | cons q qs =>
                rw [hrest] at hlast
                rw [List.getLast?_cons_cons] at hlast
                exact hih.2 llast (hrest ▸ hlast)
      · rw [if_neg hpv] at h
        rw [hpvlines, if_neg hpv]
        exact ih _ _ _ _ _ h

/-- Claim C9: a PVLoggerID line encountered while a scanner is current is
appended to that scanner's line list AND re-sets the logger ID (first
conjunct: the collection step both appends the stripped line via `appendAt`
and replaces the logger value, so the line is still present for section
splitting); and when several PVLoggerID lines occur, the Measurement stores
the value parsed from the last one (second conjunct). -/
theorem claim_C9_logger :
    (∀ (rest : List String) (k : String) (pvl : Option Int)
      (d : List (String × List String)) (l tok : String) (n : Int),
      pyStartsWith (pyRstrip l) "RTBT_Diag" = false →
      pyStartsWith (pyRstrip l) "PVLoggerID" = true →
      (pySplitOn (pyRstrip l) "=").get? 1 = some tok →
      parseInt? tok = some n →
      collect (l :: rest) (some k) pvl d =
        collect rest (some k) (some n) (appendAt d k (pyRstrip l))) ∧
    (∀ (filename : String) (fileLines : List String) (m : PTA) (llast : String),
      read_file filename fileLines = Except.ok m →
      (pvLines fileLines).getLast? = some llast →
      ∃ tok n, (pySplitOn llast "=").get? 1 = some tok ∧ parseInt? tok = some n ∧
        m.pvloggerid = some n) := by
  constructor
  · intro rest k pvl d l tok n hnm hpv hg hpi
    rw [collect.eq_def]
    dsimp only
    rw [if_neg (by rw [hnm]; exact Bool.noConfusion), if_pos hpv, hg]
    dsimp only
    rw [hpi]
  · intro filename fileLines m llast hread hlast
    rcases read_file_ok filename fileLines m hread with
      ⟨dt, short, d, pvl, prs, _, hcol, _, hm⟩
    rcases (collect_pvl fileLines none none [] d pvl hcol).2 llast hlast with
      ⟨tok, n, hg, hpi, hp⟩
    exact ⟨tok, n, hg, hpi, by rw [hm]; exact hp⟩

/-- Claim C9 witness: the collection step applied to a concrete PVLoggerID
line inside a scanner block, and the two-logger sample file whose stored
logger ID comes from the last PVLoggerID line (`PVLoggerID=2`). -/
theorem claim_C9_witness :
    collect ["PVLoggerID=7"] (some "RTBT_Diag:WS03") none [] =
      collect [] (some "RTBT_Diag:WS03") (some 7)
        (appendAt [] "RTBT_Diag:WS03" (pyRstrip "PVLoggerID=7")) ∧
    (∃ tok n, (pySplitOn "PVLoggerID=2" "=").get? 1 = some tok ∧ parseInt? tok = some n ∧
      (okD (read_file sampleName pvDemoLines)).pvloggerid = some n) :=
  ⟨claim_C9_logger.1 [] "RTBT_Diag:WS03" none [] "PVLoggerID=7" "7" 7
      (by decide) (by decide) (by decide) (by decide),
   claim_C9_logger.2 sampleName pvDemoLines (okD (read_file sampleName pvDemoLines))
      "PVLoggerID=2" (by decide) (by decide)⟩

theorem alookup_appendAt_self :
    ∀ (d : List (String × List String)) (k : String) (v : String),
      alookup (appendAt d k v) k = some ((alookup d k).getD [] ++ [v]) := by
  intro d
  induction d with
  | nil =>
    intro k v
    simp [appendAt, alookup]
  | cons a rest ih =>
    rcases a with ⟨k0, vs⟩
    intro k v
    rw [appendAt]
    by_cases hk : k0 = k
    · subst hk
      rw [if_pos rfl, alookup, if_pos rfl, alookup, if_pos rfl]
      rfl
    · rw [if_neg hk, alookup, if_neg hk, alookup, if_neg hk, ih]

theorem alookup_appendAt_ne :
    ∀ (d : List (String × List String)) (k v k' : String), k' ≠ k →
      alookup (appendAt d k v) k' = alookup d k' := by
  intro d
  induction d with
  | nil =>
    intro k v k' hne
    simp [appendAt, alookup, Ne.symm hne]
  | cons a rest ih =>
    rcases a with ⟨k0, vs⟩
    intro k v k' hne
    rw [appendAt]
    by_cases hk : k0 = k
    · subst hk
      rw [if_pos rfl, alookup, alookup, if_neg (fun hc : k0 = k' => hne hc.symm),
        if_neg (fun hc : k0 = k' => hne hc.symm)]
    · rw [if_neg hk, alookup, alookup]
      by_cases hk0 : k0 = k'
      · rw [if_pos hk0, if_pos hk0]
      · rw [if_neg hk0, if_neg hk0, ih k v k' hne]

theorem mem_keys_appendAt (d : List (String × List String)) (k v k' : String) :
    k' ∈ (appendAt d k v).map Prod.fst ↔ k' ∈ d.map Prod.fst ∨ k' = k := by
  rw [appendAt_keys]
  by_cases hm : k ∈ d.map Prod.fst
  · rw [if_pos hm]
    constructor
    · exact fun h => Or.inl h
    · intro h
      rcases h with h | h
      · exact h
      · exact h ▸ hm
  · rw [if_neg hm, List.mem_append, List.mem_singleton]

theorem blockAppend_none (d' d : List (String × List String)) (k t : String)
    (brest : List String)
    (hb1 : (alookup d' k).getD [] = (alookup d k).getD [] ++ brest)
    (hb2 : k ∈ d'.map Prod.fst ↔ k ∈ d.map Prod.fst ∨ brest ≠ []) :
    ((alookup d' k).getD [] =
      (alookup d k).getD [] ++ ((if (none : Option String) = some k then [t] else []) ++ brest)) ∧
    (k ∈ d'.map Prod.fst ↔ k ∈ d.map Prod.fst ∨
      ((if (none : Option String) = some k then [t] else []) ++ brest ≠ [])) := by
  rw [if_neg (fun hc => Option.noConfusion hc), List.nil_append]
  exact ⟨hb1, hb2⟩

theorem blockAppend_some (d' d : List (String × List String)) (k k0 t : String)
    (brest : List String)
    (hb1 : (alookup d' k).getD [] = (alookup (appendAt d k0 t) k).getD [] ++ brest)
    (hb2 : k ∈ d'.map Prod.fst ↔ k ∈ (appendAt d k0 t).map Prod.fst ∨ brest ≠ []) :
    ((alookup d' k).getD [] =
      (alookup d k).getD [] ++ ((if some k0 = some k then [t] else []) ++ brest)) ∧
    (k ∈ d'.map Prod.fst ↔ k ∈ d.map Prod.fst ∨
      ((if some k0 = some k then [t] else []) ++ brest ≠ [])) := by
  by_cases hk : k0 = k
  · subst hk
    rw [if_pos rfl]
    constructor
    · rw [hb1, alookup_appendAt_self, Option.getD_some, List.append_assoc]
    · rw [hb2, mem_keys_appendAt]
      constructor
      · intro _
        exact Or.inr (by simp)
      · intro _
        exact Or.inl (Or.inr rfl)
  · rw [if_neg (fun hc : some k0 = some k => hk (by injection hc)), List.nil_append]
    constructor
    · rw [hb1, alookup_appendAt_ne d k0 t k (fun hc => hk hc.symm)]
    · rw [hb2, mem_keys_appendAt]
      constructor
      · intro hx
        rcases hx with (hx | hx) | hx
        · exact Or.inl hx
        · exact absurd hx.symm hk
        · exact Or.inr hx
      · intro hx
        rcases hx with hx | hx
        · exact Or.inl (Or.inl hx)
        · exact Or.inr hx

theorem collect_blockOf :
    ∀ (ls : List String) (w : Option String) (p : Option Int)
      (d d' : List (String × List String)) (p' : Option Int),
      collect ls w p d = Except.ok (d', p') →
      ∀ k, ((alookup d' k).getD [] = (alookup d k).getD [] ++ blockOf k ls w) ∧
        (k ∈ d'.map Prod.fst ↔ k ∈ d.map Prod.fst ∨ blockOf k ls w ≠ []) := by
  intro ls
  induction ls with
  | nil =>
    intro w p d d' p' h k
    rw [collect.eq_def] at h
    dsimp only at h
    cases h
    rw [blockOf]
    exact ⟨(List.append_nil _).symm, by simp⟩
  | cons l0 rest ih =>
    intro w p d d' p' h k
    rw [collect.eq_def] at h
    dsimp only at h
    rw [blockOf]
    by_cases hmk : pyStartsWith (pyRstrip l0) "RTBT_Diag" = true
    · rw [if_pos hmk] at h
      rw [if_pos (by rw [isMarker]; exact hmk)]
      exact ih _ _ _ _ _ h k
    · rw [if_neg hmk] at h
      rw [if_neg (by rw [isMarker]; exact fun hc => hmk hc)]
      cases w with
      | none =>
        dsimp only at h
        by_cases hpv : pyStartsWith (pyRstrip l0) "PVLoggerID" = true
        · rw [if_pos hpv] at h
          cases hg : (pySplitOn (pyRstrip l0) "=").get? 1 with
          | none =>
            rw [hg] at h
            exact Except.noConfusion h
          | some tok =>
            rw [hg] at h
            dsimp only at h
            cases hpi : parseInt? tok with
            | none =>
              rw [hpi] at h
              exact Except.noConfusion h
            | some n =>
              rw [hpi] at h
              exact blockAppend_none d' d k (pyRstrip l0) (blockOf k rest none)
                (ih _ _ _ _ _ h k).1 (ih _ _ _ _ _ h k).2
        · rw [if_neg hpv] at h
          exact blockAppend_none d' d k (pyRstrip l0) (blockOf k rest none)
            (ih _ _ _ _ _ h k).1 (ih _ _ _ _ _ h k).2
      | some k0 =>
        dsimp only at h
        by_cases hpv : pyStartsWith (pyRstrip l0) "PVLoggerID" = true
        · rw [if_pos hpv] at h
          cases hg : (pySplitOn (pyRstrip l0) "=").get? 1 with
          | none =>
            rw [hg] at h
            exact Except.noConfusion h
          | some tok =>
            rw [hg] at h
            dsimp only at h
            cases hpi : parseInt? tok with
            | none =>
              rw [hpi] at h
              exact Except.noConfusion h
            | some n =>
              rw [hpi] at h
              exact blockAppend_some d' d k k0 (pyRstrip l0) (blockOf k rest (some k0))
                (ih _ _ _ _ _ h k).1 (ih _ _ _ _ _ h k).2
        · rw [if_neg hpv] at h
          exact blockAppend_some d' d k k0 (pyRstrip l0) (blockOf k rest (some k0))
            (ih _ _ _ _ _ h k).1 (ih _ _ _ _ _ h k).2

theorem blockOf_ne_nil :
    ∀ (ls : List String) (c : Option String) (k : String), blockOf k ls c ≠ [] →
      (c = some k ∧ ∃ l rest, ls = l :: rest ∧ isMarker (pyRstrip l) = false) ∨
      (∃ pre l l2 suf, ls = pre ++ l :: l2 :: suf ∧ pyRstrip l = k ∧ isMarker k = true ∧
        isMarker (pyRstrip l2) = false) := by
  intro ls
  induction ls with
  | nil => intro c k h; exact absurd rfl h
  | cons l rest ih =>
    intro c k h
    rw [blockOf] at h
    by_cases hmk : isMarker (pyRstrip l) = true
    · rw [if_pos hmk] at h
      rcases ih (some (pyRstrip l)) k h with
        ⟨hck, l2, rest2, hrest, hl2⟩ | ⟨pre, l1, l2, suf, hrest, hk1, hkm, hl2⟩
      · have hlk : pyRstrip l = k := by injection hck
        exact Or.inr ⟨[], l, l2, rest2, by rw [hrest]; rfl, hlk, by rw [← hlk]; exact hmk, hl2⟩
      · exact Or.inr ⟨l :: pre, l1, l2, suf, by rw [hrest]; rw [List.cons_append], hk1, hkm, hl2⟩
    · rw [if_neg hmk] at h
      by_cases hck : c = some k
      · exact Or.inl ⟨hck, l, rest, rfl, Bool.eq_false_iff.2 hmk⟩
      · rw [if_neg hck, List.nil_append] at h
        rcases ih c k h with ⟨hck2, _⟩ | hdec
        · exact absurd hck2 hck
        · rcases hdec with ⟨pre, l1, l2, suf, hrest, hk1, hkm, hl2⟩
          exact Or.inr ⟨l :: pre, l1, l2, suf, by rw [hrest]; rw [List.cons_append], hk1, hkm, hl2⟩

/-- Claim C10: in the scanner table built by the collection pass, keys never
repeat (every distinct marker text yields at most one scanner ID); a key's
stored line list is exactly `blockOf`, the concatenation in file order of
all right-stripped non-marker lines whose most recent preceding marker is
that key, so repeated occurrences of a marker merge into one list; and an
entry exists for a key only if some occurrence of that marker line is
immediately followed by a non-marker line (at least one line before the
next marker or end of input). -/
theorem claim_C10_blocks (ls : List String) (d' : List (String × List String)) (p' : Option Int)
    (hcol : collect ls none none [] = Except.ok (d', p')) :
    (d'.map Prod.fst).Nodup ∧
    (∀ k, k ∈ d'.map Prod.fst ↔ blockOf k ls none ≠ []) ∧
    (∀ k, (alookup d' k).getD [] = blockOf k ls none) ∧
    (∀ k, k ∈ d'.map Prod.fst →
      ∃ pre l l2 suf, ls = pre ++ l :: l2 :: suf ∧ pyRstrip l = k ∧ isMarker k = true ∧
        isMarker (pyRstrip l2) = false) := by
  have hb := collect_blockOf ls none none [] d' p' hcol
  refine ⟨collect_keys_nodup ls none none [] d' p' List.nodup_nil hcol, ?_, ?_, ?_⟩
  · intro k
    rw [(hb k).2]
    simp
  · intro k
    rw [(hb k).1]
    rfl
  · intro k hk
    rcases ((hb k).2).1 hk with h1 | h1
    · exact absurd h1 (by simp)
    · rcases blockOf_ne_nil ls none k h1 with ⟨hck, _⟩ | hdec
      · exact absurd hck (fun hc => Option.noConfusion hc)
      · exact hdec

/-- Claim C10 witness: the sample file evaluated — unique keys, the WS02
entry equal to its merged block, and the marker-followed-by-a-line
decomposition for WS02. -/
theorem claim_C10_witness :
    (sampleDict.map Prod.fst).Nodup ∧
    ("RTBT_Diag:WS02" ∈ sampleDict.map Prod.fst ↔
      blockOf "RTBT_Diag:WS02" sampleLines none ≠ []) ∧
    (alookup sampleDict "RTBT_Diag:WS02").getD [] =
      blockOf "RTBT_Diag:WS02" sampleLines none ∧
    (∃ pre l l2 suf, sampleLines = pre ++ l :: l2 :: suf ∧
      pyRstrip l = "RTBT_Diag:WS02" ∧ isMarker "RTBT_Diag:WS02" = true ∧
      isMarker (pyRstrip l2) = false) :=
  ⟨(claim_C10_blocks sampleLines sampleDict (some 12345) (by decide)).1,
   (claim_C10_blocks sampleLines sampleDict (some 12345) (by decide)).2.1 "RTBT_Diag:WS02",
   (claim_C10_blocks sampleLines sampleDict (some 12345) (by decide)).2.2.1 "RTBT_Diag:WS02",
   (claim_C10_blocks sampleLines sampleDict (some 12345) (by decide)).2.2.2 "RTBT_Diag:WS02"
     (by decide)⟩

theorem lexLe_cons (x y : Char) (as bs : List Char) :
    lexLe (x :: as) (y :: bs) = true ↔ (x < y ∨ (x = y ∧ lexLe as bs = true)) := by
  rw [lexLe]
  by_cases h1 : x < y
  · simp [h1]
  · rw [if_neg h1]
    by_cases h2 : x = y
    · simp [h1, h2]
    · simp [h1, h2]

theorem lexLe_total : ∀ (a b : List Char), lexLe a b = true ∨ lexLe b a = true := by
  intro a
  induction a with
  | nil => intro b; exact Or.inl rfl
  | cons x as ih =>
    intro b
    cases b with
    | nil => exact Or.inr rfl
    | cons y bs =>
      rcases lt_trichotomy x y with hlt | heq | hgt
      · exact Or.inl ((lexLe_cons x y as bs).2 (Or.inl hlt))
      · subst heq
        rcases ih bs with h | h
        · exact Or.inl ((lexLe_cons x x as bs).2 (Or.inr ⟨rfl, h⟩))
        · exact Or.inr ((lexLe_cons x x bs as).2 (Or.inr ⟨rfl, h⟩))
      · exact Or.inr ((lexLe_cons y x bs as).2 (Or.inl hgt))

theorem lexLe_trans : ∀ (a b c : List Char),
    lexLe a b = true → lexLe b c = true → lexLe a c = true := by
  intro a
  induction a with
  | nil => intro b c _ _; rfl
  | cons x as ih =>
    intro b c hab hbc
    cases b with
    | nil => exact Bool.noConfusion hab
    | cons y bs =>
      cases c with
      | nil => exact Bool.noConfusion hbc
      | cons z cs =>
        rcases (lexLe_cons x y as bs).1 hab with h1 | ⟨h1, h1r⟩
        · rcases (lexLe_cons y z bs cs).1 hbc with h2 | ⟨h2, _⟩
          · exact (lexLe_cons x z as cs).2 (Or.inl (lt_trans h1 h2))
          · exact (lexLe_cons x z as cs).2 (Or.inl (h2 ▸ h1))
        · rcases (lexLe_cons y z bs cs).1 hbc with h2 | ⟨h2, h2r⟩
          · exact (lexLe_cons x z as cs).2 (Or.inl (h1 ▸ h2))
          · exact (lexLe_cons x z as cs).2 (Or.inr ⟨h1.trans h2, ih bs cs h1r h2r⟩)

instance : IsTotal String pyLeRel :=
  ⟨fun a b => lexLe_total a.data b.data⟩

instance : IsTrans String pyLeRel :=
  ⟨fun a b c => lexLe_trans a.data b.data c.data⟩

theorem markersFollowed_tail (l : String) (rest : List String)
    (h : markersFollowed (l :: rest) = true) : markersFollowed rest = true := by
  cases rest with
  | nil => rfl
  | cons l2 r2 =>
    rw [markersFollowed, Bool.and_eq_true] at h
    exact h.2

theorem markersOf_cons (l : String) (rest : List String) :
    markersOf (l :: rest) =
      if isMarker (pyRstrip l) = true then pyRstrip l :: markersOf rest else markersOf rest := by
  rw [markersOf, List.map_cons, List.filter_cons]
  by_cases hc : isMarker (pyRstrip l) = true
  · rw [if_pos hc, if_pos hc]
    rfl
  · rw [if_neg hc, if_neg hc]
    rfl

theorem blockOf_of_marker : ∀ (ls : List String) (c : Option String) (k : String),
    markersFollowed ls = true → k ∈ markersOf ls → blockOf k ls c ≠ [] := by
  intro ls
  induction ls with
  | nil => intro c k _ hk; exact absurd hk (List.not_mem_nil k)
  | cons l rest ih =>
    intro c k hf hk
    rw [markersOf_cons] at hk
    rw [blockOf]
    by_cases hmk : isMarker (pyRstrip l) = true
    · rw [if_pos hmk]
      rw [if_pos hmk] at hk
      by_cases hkl : pyRstrip l = k
      · cases rest with
        | nil =>
          rw [markersFollowed] at hf
          rw [hmk] at hf
          exact Bool.noConfusion hf
        | cons l2 r2 =>
          rw [markersFollowed, Bool.and_eq_true] at hf
          have h2 := hf.1
          have hl2 : isMarker (pyRstrip l2) = false := by
            rw [Bool.or_eq_true] at h2
            rcases h2 with hx | hx
            · rw [Bool.not_eq_true'] at hx
              rw [hmk] at hx
              exact Bool.noConfusion hx
            · rw [Bool.not_eq_true'] at hx
              exact hx
          rw [blockOf]
          rw [if_neg (by rw [hl2]; exact Bool.noConfusion)]
          rw [if_pos (by rw [hkl])]
          exact List.cons_ne_nil _ _
      · have hkrest : k ∈ markersOf rest := by
          rcases List.mem_cons.1 hk with hx | hx
          · exact absurd hx.symm hkl
          · exact hx
        exact ih (some (pyRstrip l)) k (markersFollowed_tail l rest hf) hkrest
    · rw [if_neg hmk]
      rw [if_neg hmk] at hk
      intro hc
      rcases List.append_eq_nil.1 hc with ⟨_, h2⟩
      exact ih c k (markersFollowed_tail l rest hf) hk h2

theorem buildProfiles_keys (d : List (String × List String)) :
    ∀ (ids : List String) (prs : List (String × Profile)),
      buildProfiles d ids = Except.ok prs → prs.map Prod.fst = ids := by
  intro ids
  induction ids with
  | nil =>
    intro prs h
    rw [buildProfiles] at h
    cases h
    rfl
  | cons id0 rest ih =>
    intro prs h
    rw [buildProfiles] at h
    cases hl0 : alookup d id0 with
    | none =>
      rw [hl0] at h
      exact Except.noConfusion h
    | some bl0 =>
      rw [hl0] at h
      dsimp only at h
      cases hp : parseProfile bl0 with
      | error e =>
        rw [hp] at h
        exact Except.noConfusion h
      | ok p =>
        rw [hp] at h
        cases hbp : buildProfiles d rest with
        | error e =>
          rw [hbp] at h
          exact Except.noConfusion h
        | ok ps =>
          rw [hbp] at h
          cases h
          rw [List.map_cons, ih ps hbp]

theorem appendAt_nonmarker :
    ∀ (d : List (String × List String)) (k v : String),
      (∀ kv ∈ d, ∀ l ∈ kv.2, isMarker l = false) → isMarker v = false →
      ∀ kv ∈ appendAt d k v, ∀ l ∈ kv.2, isMarker l = false := by
  intro d
  induction d with
  | nil =>
    intro k v _ hv kv hkv l hl
    rw [appendAt] at hkv
    rcases List.mem_singleton.1 hkv with rfl
    rcases List.mem_singleton.1 hl with rfl
    exact hv
  | cons a rest ih =>
    rcases a with ⟨k0, vs⟩
    intro k v hd hv kv hkv l hl
    rw [appendAt] at hkv
    by_cases hk : k0 = k
    · rw [if_pos hk] at hkv
      rcases List.mem_cons.1 hkv with rfl | hx
      · rcases List.mem_append.1 hl with hx | hx
        · exact hd (k0, vs) (List.mem_cons_self _ _) l hx
        · rcases List.mem_singleton.1 hx with rfl
          exact hv
      · exact hd kv (List.mem_cons_of_mem _ hx) l hl
    · rw [if_neg hk] at hkv
      rcases List.mem_cons.1 hkv with rfl | hx
      · exact hd (k0, vs) (List.mem_cons_self _ _) l hl
      · exact ih k v (fun kv2 hkv2 => hd kv2 (List.mem_cons_of_mem _ hkv2)) hv kv hx l hl

theorem collect_lines_nonmarker :
    ∀ (ls : List String) (w : Option String) (p : Option Int)
      (d d' : List (String × List String)) (p' : Option Int),
      (∀ kv ∈ d, ∀ l ∈ kv.2, isMarker l = false) →
      collect ls w p d = Except.ok (d', p') →
      ∀ kv ∈ d', ∀ l ∈ kv.2, isMarker l = false := by
  intro ls
  induction ls with
  | nil =>
    intro w p d d' p' hd h
    rw [collect.eq_def] at h
    dsimp only at h
    cases h
    exact hd
  | cons l0 rest ih =>
    intro w p d d' p' hd h
    rw [collect.eq_def] at h
    dsimp only at h
    by_cases hmk : pyStartsWith (pyRstrip l0) "RTBT_Diag" = true
    · rw [if_pos hmk] at h
      exact ih _ _ _ _ _ hd h
    · rw [if_neg hmk] at h
      have hnm : isMarker (pyRstrip l0) = false := by
        rw [isMarker]
        exact Bool.eq_false_iff.2 hmk
      have hd1 : ∀ kv ∈ (match w with
          | some k => appendAt d k (pyRstrip l0)
          | none => d), ∀ l ∈ kv.2, isMarker l = false := by
        cases w with
        | none => exact hd
        | some k => exact appendAt_nonmarker d k (pyRstrip l0) hd hnm
      by_cases hpv : pyStartsWith (pyRstrip l0) "PVLoggerID" = true
      · rw [if_pos hpv] at h
        cases hg : (pySplitOn (pyRstrip l0) "=").get? 1 with
        | none =>
          rw [hg] at h
          exact Except.noConfusion h
        | some tok =>
          rw [hg] at h
          dsimp only at h
          cases hpi : parseInt? tok with
          | none =>
            rw [hpi] at h
            exact Except.noConfusion h
          | some n =>
            rw [hpi] at h
            exact ih _ _ _ _ _ hd1 h
      · rw [if_neg hpv] at h
        exact ih _ _ _ _ _ hd1 h

/-- Claim C4: for a file satisfying the validity conditions (distinct marker
lines, each immediately followed by a non-marker line), the parsed record's
`node_ids` has exactly one entry per marker, is lexicographically sorted with
no duplicates, its membership coincides with the set of marker lines, and it
is exactly the key sequence of the profiles mapping; moreover no marker line
is ever stored in any block's collected line list. -/
theorem claim_C4_scanner_ids (filename : String) (ls : List String) (m : PTA)
    (hread : read_file filename ls = Except.ok m)
    (hnodup : (markersOf ls).Nodup)
    (hfol : markersFollowed ls = true) :
    m.node_ids.length = (markersOf ls).length ∧
    List.Sorted pyLeRel m.node_ids ∧
    m.node_ids.Nodup ∧
    (∀ s, s ∈ m.node_ids ↔ s ∈ markersOf ls) ∧
    m.profiles.map Prod.fst = m.node_ids ∧
    (∀ (d' : List (String × List String)) (p' : Option Int),
      collect ls none none [] = Except.ok (d', p') →
      ∀ kv ∈ d', ∀ l2 ∈ kv.2, isMarker l2 = false) := by
  rcases read_file_ok filename ls m hread with ⟨dt, short, d, pvl, prs, hpt, hcol, hb, hm⟩
  have hkeysnodup := collect_keys_nodup ls none none [] d pvl List.nodup_nil hcol
  have hblock := collect_blockOf ls none none [] d pvl hcol
  have hnodids : m.node_ids = pySorted (d.map Prod.fst) := by rw [hm]
  have hmemiff : ∀ s, s ∈ m.node_ids ↔ s ∈ markersOf ls := by
    intro s
    rw [hnodids, pySorted, List.mem_insertionSort]
    constructor
    · intro hs
      rcases (hblock s).2.1 hs with h1 | h1
      · exact absurd h1 (by simp)
      · rcases blockOf_ne_nil ls none s h1 with
          ⟨hck, _⟩ | ⟨pre, l1, l2, suf, hrest, hk1, hkm, _⟩
        · exact absurd hck (fun hc => Option.noConfusion hc)
        · rw [markersOf]
          apply List.mem_filter.2
          refine ⟨List.mem_map.2 ⟨l1, ?_, hk1⟩, hkm⟩
          rw [hrest]
          exact List.mem_append.2 (Or.inr (List.mem_cons_self _ _))
    · intro hs
      exact (hblock s).2.2 (Or.inr (blockOf_of_marker ls none s hfol hs))
  have hnd : m.node_ids.Nodup := by
    rw [hnodids, pySorted]
    exact (List.Perm.nodup_iff (List.perm_insertionSort pyLeRel _)).2 hkeysnodup
  refine ⟨?_, ?_, hnd, hmemiff, ?_, ?_⟩
  · exact ((List.perm_ext_iff_of_nodup hnd hnodup).2 hmemiff).length_eq
  · rw [hnodids, pySorted]
    exact List.sorted_insertionSort pyLeRel _
  · rw [hm]
    dsimp only
    exact buildProfiles_keys d _ prs hb
  · intro d2 p2 hcol2 kv hkv l2 hl2
    rw [hcol] at hcol2
    injection hcol2 with h3
    injection h3 with h4 h5
    exact collect_lines_nonmarker ls none none [] d pvl (by intro kv2 hkv2; cases hkv2)
      hcol kv (h4 ▸ hkv) l2 hl2

/-- Claim C4 witness: the two-scanner sample file — node_ids of length two,
sorted, duplicate-free, membership matching the marker set, profile keys
equal to node_ids, and the stats line of the WS02 block is not a marker. -/
theorem claim_C4_witness :
    (okD (read_file sampleName sampleLines)).node_ids.length = (markersOf sampleLines).length ∧
    List.Sorted pyLeRel (okD (read_file sampleName sampleLines)).node_ids ∧
    (okD (read_file sampleName sampleLines)).node_ids.Nodup ∧
    ("RTBT_Diag:WS01" ∈ (okD (read_file sampleName sampleLines)).node_ids ↔
      "RTBT_Diag:WS01" ∈ markersOf sampleLines) ∧
    (okD (read_file sampleName sampleLines)).profiles.map Prod.fst =
      (okD (read_file sampleName sampleLines)).node_ids ∧
    isMarker "Sigma 10 20 30 40 50 60" = false := by
  have h := claim_C4_scanner_ids sampleName sampleLines
    (okD (read_file sampleName sampleLines)) (by decide) (by decide) (by decide)
  exact ⟨h.1, h.2.1, h.2.2.1, h.2.2.2.1 "RTBT_Diag:WS01", h.2.2.2.2.1,
    h.2.2.2.2.2 sampleDict (some 12345) (by decide) ("RTBT_Diag:WS02", sampleBlock)
      (by decide) "Sigma 10 20 30 40 50 60" (by decide)⟩
